import Mathlib

/-!
# Verification of the Tarp vector-graphics core (src/Tarp/Tarp.h)

A shallow embedding of the parts of Tarp.h needed to settle the claims:
geometry primitives (`tpVec2`, `tpMat2`, `tpTransform`), the curve
flattener (`_tpGLFlattenCurve` / `_tpGLFlattenContour`), the path builder
API (`tpPathMoveTo`, `tpPathLineTo`, `tpPathCubicCurveTo`,
`tpPathQuadraticCurveTo`, `tpPathArcTo`, `tpPathClose`), the continuous
stroke tessellation, bounds-quad generation, the dash start state, color
stop finalization and the clipping-plane state machine.

Modelling conventions:
* `tpFloat` (C `float`) is modelled as `ℚ` (exact real arithmetic).
  Comparisons of the form `sqrt e > c` with `e, c ≥ 0` are embedded as
  `e > c^2` (square-root monotonicity); this is noted at each use.
* Values of `sqrtf/sinf/cosf/acosf` that flow into results (not just into
  comparisons) are taken from an explicit `FloatOps` record of rational
  stand-ins.  Concrete evaluations use `exactFloatOps`, whose `sqrt` is
  exact on perfect squares (all concrete inputs used below only take
  square roots of perfect squares).
* C growable arrays become `List`s; appending at the end of the shared
  vertex/joint buffers is modelled by `List.append`.
* The GL calls in the clipping engine only touch GPU state; the state
  machine over `clippingStackDepth` / `currentClipStencilPlane` /
  `bCanSwapStencilPlanes` is modelled exactly, with the stencil draws
  abstracted away.
-/

/-- C `float` is modelled as `ℚ`. -/
abbrev tpFloat : Type := ℚ

/-- `FLT_EPSILON` for IEEE single precision, `2^-23`. -/
def FLT_EPSILON : ℚ := 1 / 2 ^ 23

/-- `FLT_MAX` for IEEE single precision, `(2 - 2^-23)·2^127`. -/
def FLT_MAX : ℚ := 2 ^ 128 - 2 ^ 104

/-- `#define TARP_MAX_CURVE_SUBDIVISIONS 16` -/
def TARP_MAX_CURVE_SUBDIVISIONS : Nat := 16

structure tpVec2 where
  x : tpFloat
  y : tpFloat
deriving DecidableEq, Repr

/-- `tpVec2Make` -/
def tpVec2Make (x y : tpFloat) : tpVec2 := ⟨x, y⟩

/-- `tpVec2Add` -/
def tpVec2Add (a b : tpVec2) : tpVec2 := ⟨a.x + b.x, a.y + b.y⟩

/-- `tpVec2Sub` -/
def tpVec2Sub (a b : tpVec2) : tpVec2 := ⟨a.x - b.x, a.y - b.y⟩

/-- `tpVec2MultScalar` -/
def tpVec2MultScalar (a : tpVec2) (b : tpFloat) : tpVec2 := ⟨a.x * b, a.y * b⟩

/-- `tpVec2Equals` (exact `==` comparison in the source) -/
def tpVec2Equals (a b : tpVec2) : Bool := a.x = b.x && a.y = b.y

/-- `tpVec2LengthSquared` -/
def tpVec2LengthSquared (v : tpVec2) : tpFloat := v.x * v.x + v.y * v.y

/-- `tpVec2Perp`: `(a.y, -a.x)` -/
def tpVec2Perp (a : tpVec2) : tpVec2 := ⟨a.y, -a.x⟩

/-- `tpVec2Dot` -/
def tpVec2Dot (a b : tpVec2) : tpFloat := a.x * b.x + a.y * b.y

/-- `tpVec2Cross` -/
def tpVec2Cross (a b : tpVec2) : tpFloat := a.x * b.y - a.y * b.x

/-- `tpVec2DistanceSquared` -/
def tpVec2DistanceSquared (a b : tpVec2) : tpFloat :=
  tpVec2LengthSquared (tpVec2Sub a b)

/-- `tpVec2Lerp`: `a·(1-t) + b·t` -/
def tpVec2Lerp (a b : tpVec2) (t : tpFloat) : tpVec2 :=
  tpVec2Add (tpVec2MultScalar a (1 - t)) (tpVec2MultScalar b t)

/-- `tpMat2` stores four floats `v[0..3]`; `tpMat2Make(a,b,c,d)` writes
`v[0]=a, v[2]=b, v[1]=c, v[3]=d` (column-major 2×2, `a b / c d`). -/
structure tpMat2 where
  v0 : tpFloat
  v1 : tpFloat
  v2 : tpFloat
  v3 : tpFloat
deriving DecidableEq, Repr

/-- `tpMat2Make(a, b, c, d)`: `v[0]=a, v[2]=b, v[1]=c, v[3]=d`. -/
def tpMat2Make (a b c d : tpFloat) : tpMat2 := ⟨a, c, b, d⟩

/-- `tpMat2MultVec2`: `ret.x = x·v[0] + y·v[2]; ret.y = x·v[1] + y·v[3]`. -/
def tpMat2MultVec2 (m : tpMat2) (vec : tpVec2) : tpVec2 :=
  ⟨vec.x * m.v0 + vec.y * m.v2, vec.x * m.v1 + vec.y * m.v3⟩

/-- `tpMat2Mult` exactly as in the source. -/
def tpMat2Mult (a b : tpMat2) : tpMat2 where
  v0 := b.v0 * a.v0 + b.v1 * a.v2
  v1 := b.v0 * a.v1 + b.v1 * a.v3
  v2 := b.v2 * a.v0 + b.v3 * a.v2
  v3 := b.v2 * a.v1 + b.v3 * a.v3

/-- `tpTransform`: a 2×2 matrix and a translation. -/
structure tpTransform where
  m : tpMat2
  t : tpVec2
deriving DecidableEq, Repr

/-- `tpTransformApply`: `M·p + t`. -/
def tpTransformApply (trafo : tpTransform) (vec : tpVec2) : tpVec2 :=
  tpVec2Add (tpMat2MultVec2 trafo.m vec) trafo.t

/-- `tpTransformCombine`: `ret.t = A.apply(B.t); ret.m = A.m · B.m`. -/
def tpTransformCombine (a b : tpTransform) : tpTransform where
  t := tpTransformApply a b.t
  m := tpMat2Mult a.m b.m

/-- C9: applying a combined transform is composition of applications;
exact over the rational embedding of float arithmetic. -/
theorem tpTransformCombine_apply (A B : tpTransform) (p : tpVec2) :
    tpTransformApply (tpTransformCombine A B) p =
      tpTransformApply A (tpTransformApply B p) := by
  simp only [tpTransformApply, tpTransformCombine, tpTransformApply,
    tpMat2Mult, tpMat2MultVec2, tpVec2Add, tpVec2.mk.injEq]
  constructor <;> ring

/-! ## Curves and flattening (`_tpGLFlattenCurve`, `_tpGLFlattenContour`) -/

/-- `_tpGLCurve`: a cubic Bézier `p0, h0, h1, p1`. -/
structure _tpGLCurve where
  p0 : tpVec2
  h0 : tpVec2
  h1 : tpVec2
  p1 : tpVec2
deriving DecidableEq, Repr

/-- `_tpGLRect` -/
structure _tpGLRect where
  min : tpVec2
  max : tpVec2
deriving DecidableEq, Repr

/-- `_tpGLIsClose`: `|x - y| <= ε · max(1, |x|, |y|)`. -/
def _tpGLIsClose (x y epsilon : tpFloat) : Bool :=
  |x - y| ≤ epsilon * max 1 (max |x| |y|)

/-- `_tpGLIsCurveLinear` -/
def _tpGLIsCurveLinear (c : _tpGLCurve) : Bool :=
  _tpGLIsClose c.p0.x c.h0.x FLT_EPSILON && _tpGLIsClose c.p0.y c.h0.y FLT_EPSILON &&
  _tpGLIsClose c.p1.x c.h1.x FLT_EPSILON && _tpGLIsClose c.p1.y c.h1.y FLT_EPSILON

/-- The flatness metric of `_tpGLIsCurveFlatEnough`:
`max(ux², vx²) + max(uy², vy²)` with `u = 3h0 - 2p0 - p1`, `v = 3h1 - 2p1 - p0`. -/
def _tpGLFlatnessMetric (c : _tpGLCurve) : tpFloat :=
  let ux := c.h0.x * 3 - c.p0.x * 2 - c.p1.x
  let uy := c.h0.y * 3 - c.p0.y * 2 - c.p1.y
  let vx := c.h1.x * 3 - c.p1.x * 2 - c.p0.x
  let vy := c.h1.y * 3 - c.p1.y * 2 - c.p0.y
  max (ux * ux) (vx * vx) + max (uy * uy) (vy * vy)

/-- `_tpGLIsCurveFlatEnough`: linear curves short-circuit; otherwise the
flatness metric is compared against `10·tolerance²`. -/
def _tpGLIsCurveFlatEnough (c : _tpGLCurve) (tolerance : tpFloat) : Bool :=
  _tpGLIsCurveLinear c || decide (_tpGLFlatnessMetric c < 10 * tolerance * tolerance)

/-- `_tpGLSubdivideCurve`: de Casteljau subdivision at parameter `t`,
returning `(first, second)` = (left half, right half). -/
def _tpGLSubdivideCurve (c : _tpGLCurve) (t : tpFloat) : _tpGLCurve × _tpGLCurve :=
  let p0h0 := tpVec2Lerp c.p0 c.h0 t
  let h0h1 := tpVec2Lerp c.h0 c.h1 t
  let h1p1 := tpVec2Lerp c.h1 c.p1 t
  let p0h0h1 := tpVec2Lerp p0h0 h0h1 t
  let h0h1p1 := tpVec2Lerp h0h1 h1p1 t
  let p0h0h1p1 := tpVec2Lerp p0h0h1 h0h1p1 t
  (⟨c.p0, p0h0, p0h0h1, p0h0h1p1⟩, ⟨p0h0h1p1, h0h1p1, h1p1, c.p1⟩)

/-- `_tpGLEvaluatePointForBounds`: grow a bounds rect to contain a point. -/
def _tpGLEvaluatePointForBounds (vec : tpVec2) (bounds : _tpGLRect) : _tpGLRect :=
  ⟨⟨min vec.x bounds.min.x, min vec.y bounds.min.y⟩,
   ⟨max vec.x bounds.max.x, max vec.y bounds.max.y⟩⟩

/-- `_tpGLInitBounds`: min at `FLT_MAX`, max at `-FLT_MAX`. -/
def _tpGLInitBounds : _tpGLRect := ⟨⟨FLT_MAX, FLT_MAX⟩, ⟨-FLT_MAX, -FLT_MAX⟩⟩

/-- `_tpGLMergeBounds` -/
def _tpGLMergeBounds (a b : _tpGLRect) : _tpGLRect :=
  _tpGLEvaluatePointForBounds b.max (_tpGLEvaluatePointForBounds b.min a)

/-- The fixed arguments of one `_tpGLFlattenCurve` call: the original
curve (joint flags compare subdivided endpoints against `orig.p1`), the
angle tolerance, and the `_bIsClosed` / `_bLastCurve` flags. -/
structure FlattenParams where
  orig : _tpGLCurve
  tol : tpFloat
  bIsClosed : Bool
  bLastCurve : Bool

/-- The output accumulators of `_tpGLFlattenCurve` (`_outVertices`,
`_outJoints`, `_bounds`, `_vertexCount`) plus the mutable `_bFirstCurve`
flag. -/
structure FlattenAcc where
  verts : List tpVec2
  joints : List Bool
  bounds : _tpGLRect
  vertexCount : Nat
  bFirstCurve : Bool
deriving DecidableEq, Repr

/-- The emission branch of `_tpGLFlattenCurve`'s loop (a flat-enough or
depth-exhausted stack top `cur` is appended to the output as-is). -/
def flattenEmit (P : FlattenParams) (cur : _tpGLCurve) (acc : FlattenAcc) : FlattenAcc :=
  if acc.bFirstCurve then
    { verts := acc.verts ++ [cur.p0, cur.p1]
      joints := acc.joints ++
        [false, tpVec2Equals cur.p1 P.orig.p1 && !P.bLastCurve]
      bounds := _tpGLEvaluatePointForBounds cur.p1
        (_tpGLEvaluatePointForBounds cur.p0 acc.bounds)
      vertexCount := acc.vertexCount + 2
      bFirstCurve := false }
  else
    { verts := acc.verts ++ [cur.p1]
      joints := acc.joints ++
        [if P.bIsClosed then tpVec2Equals cur.p1 P.orig.p1
         else tpVec2Equals cur.p1 P.orig.p1 && !P.bLastCurve]
      bounds := _tpGLEvaluatePointForBounds cur.p1 acc.bounds
      vertexCount := acc.vertexCount + 1
      bFirstCurve := acc.bFirstCurve }

/-- The state of `_tpGLFlattenCurve`'s explicit-stack loop.  The C array
`stack[0..stackIndex]` is modelled top-first: the head of `stack` is
`stack[stackIndex]`, so the C `stackIndex` of the head is `length - 1`. -/
structure FlattenState where
  stack : List _tpGLCurve
  acc : FlattenAcc
deriving DecidableEq, Repr

/-- One iteration of `_tpGLFlattenCurve`'s `while (stackIndex >= 0)` loop:
if the top is subdividable (its stack index `< TARP_MAX_CURVE_SUBDIVISIONS - 1`
and it is not flat enough) it is bisected at `t = 0.5`, the right half
replacing it and the left half pushed on top; otherwise it is emitted and
popped.  An empty stack is left unchanged (loop exit). -/
def flattenStep (P : FlattenParams) (s : FlattenState) : FlattenState :=
  match s.stack with
  | [] => s
  | cur :: rest =>
    if rest.length < TARP_MAX_CURVE_SUBDIVISIONS - 1 ∧
        ¬_tpGLIsCurveFlatEnough cur P.tol then
      let cp := _tpGLSubdivideCurve cur (1/2)
      ⟨cp.1 :: cp.2 :: rest, s.acc⟩
    else
      ⟨rest, flattenEmit P cur s.acc⟩

/-- Iterate `flattenStep` `n` times. -/
def flattenRun (P : FlattenParams) : Nat → FlattenState → FlattenState
  | 0, s => s
  | n + 1, s => flattenRun P n (flattenStep P s)

/-- `_tpGLFlattenCurve`: run the subdivision loop from the single-curve
stack; `some` of the final accumulator if the stack empties within `fuel`
iterations (the loop always terminates for positive tolerances, see
`flattenCurve_terminates`). -/
def _tpGLFlattenCurve (P : FlattenParams) (fuel : Nat) (acc : FlattenAcc) :
    Option FlattenAcc :=
  let s := flattenRun P fuel ⟨[P.orig], acc⟩
  if s.stack = [] then some s.acc else none

/-! ### Flattener lemmas -/

/-- The `u` vector of the flatness test: `3·h0 - 2·p0 - p1`. -/
def curveU (c : _tpGLCurve) : tpVec2 :=
  ⟨c.h0.x * 3 - c.p0.x * 2 - c.p1.x, c.h0.y * 3 - c.p0.y * 2 - c.p1.y⟩

/-- The `v` vector of the flatness test: `3·h1 - 2·p1 - p0`. -/
def curveV (c : _tpGLCurve) : tpVec2 :=
  ⟨c.h1.x * 3 - c.p1.x * 2 - c.p0.x, c.h1.y * 3 - c.p1.y * 2 - c.p0.y⟩

theorem flatnessMetric_eq (c : _tpGLCurve) :
    _tpGLFlatnessMetric c =
      max ((curveU c).x ^ 2) ((curveV c).x ^ 2) +
        max ((curveU c).y ^ 2) ((curveV c).y ^ 2) := by
  simp only [_tpGLFlatnessMetric, curveU, curveV]
  congr 1 <;> congr 1 <;> ring

theorem curveU_subdivLeft (c : _tpGLCurve) :
    curveU (_tpGLSubdivideCurve c (1/2)).1 =
      ⟨(3 * (curveU c).x - (curveV c).x) / 8, (3 * (curveU c).y - (curveV c).y) / 8⟩ := by
  simp only [curveU, curveV, _tpGLSubdivideCurve, tpVec2Lerp, tpVec2Add, tpVec2MultScalar,
    tpVec2.mk.injEq]
  constructor <;> ring

theorem curveV_subdivLeft (c : _tpGLCurve) :
    curveV (_tpGLSubdivideCurve c (1/2)).1 = ⟨(curveU c).x / 4, (curveU c).y / 4⟩ := by
  simp only [curveU, curveV, _tpGLSubdivideCurve, tpVec2Lerp, tpVec2Add, tpVec2MultScalar,
    tpVec2.mk.injEq]
  constructor <;> ring

theorem curveU_subdivRight (c : _tpGLCurve) :
    curveU (_tpGLSubdivideCurve c (1/2)).2 = ⟨(curveV c).x / 4, (curveV c).y / 4⟩ := by
  simp only [curveU, curveV, _tpGLSubdivideCurve, tpVec2Lerp, tpVec2Add, tpVec2MultScalar,
    tpVec2.mk.injEq]
  constructor <;> ring

theorem curveV_subdivRight (c : _tpGLCurve) :
    curveV (_tpGLSubdivideCurve c (1/2)).2 =
      ⟨(3 * (curveV c).x - (curveU c).x) / 8, (3 * (curveV c).y - (curveU c).y) / 8⟩ := by
  simp only [curveU, curveV, _tpGLSubdivideCurve, tpVec2Lerp, tpVec2Add, tpVec2MultScalar,
    tpVec2.mk.injEq]
  constructor <;> ring

theorem sq_combo_le (a b : ℚ) : ((3 * a - b) / 8) ^ 2 ≤ max (a ^ 2) (b ^ 2) / 4 := by
  have ha := le_max_left (a ^ 2) (b ^ 2)
  have hb := le_max_right (a ^ 2) (b ^ 2)
  nlinarith [sq_nonneg (a + b), sq_nonneg (a - b)]

theorem sq_div4_le (a b : ℚ) : (a / 4) ^ 2 ≤ max (a ^ 2) (b ^ 2) / 4 := by
  have ha := le_max_left (a ^ 2) (b ^ 2)
  nlinarith [sq_nonneg a]

/-- Halving a cubic scales the flatness metric by at least 4 (left half). -/
theorem flatnessMetric_subdivLeft (c : _tpGLCurve) :
    _tpGLFlatnessMetric (_tpGLSubdivideCurve c (1/2)).1 ≤ _tpGLFlatnessMetric c / 4 := by
  rw [flatnessMetric_eq, flatnessMetric_eq c, curveU_subdivLeft, curveV_subdivLeft]
  have hx : max (((3 * (curveU c).x - (curveV c).x) / 8) ^ 2) (((curveU c).x / 4) ^ 2) ≤
      max ((curveU c).x ^ 2) ((curveV c).x ^ 2) / 4 :=
    max_le (sq_combo_le _ _) (sq_div4_le _ _)
  have hy : max (((3 * (curveU c).y - (curveV c).y) / 8) ^ 2) (((curveU c).y / 4) ^ 2) ≤
      max ((curveU c).y ^ 2) ((curveV c).y ^ 2) / 4 :=
    max_le (sq_combo_le _ _) (sq_div4_le _ _)
  calc _ ≤ max ((curveU c).x ^ 2) ((curveV c).x ^ 2) / 4 +
        max ((curveU c).y ^ 2) ((curveV c).y ^ 2) / 4 := add_le_add hx hy
    _ = _ := by ring

/-- Halving a cubic scales the flatness metric by at least 4 (right half). -/
theorem flatnessMetric_subdivRight (c : _tpGLCurve) :
    _tpGLFlatnessMetric (_tpGLSubdivideCurve c (1/2)).2 ≤ _tpGLFlatnessMetric c / 4 := by
  rw [flatnessMetric_eq, flatnessMetric_eq c, curveU_subdivRight, curveV_subdivRight]
  have hx : max (((curveV c).x / 4) ^ 2) (((3 * (curveV c).x - (curveU c).x) / 8) ^ 2) ≤
      max ((curveU c).x ^ 2) ((curveV c).x ^ 2) / 4 := by
    rw [max_comm ((curveU c).x ^ 2) ((curveV c).x ^ 2)]
    exact max_le (sq_div4_le _ _) (sq_combo_le _ _)
  have hy : max (((curveV c).y / 4) ^ 2) (((3 * (curveV c).y - (curveU c).y) / 8) ^ 2) ≤
      max ((curveU c).y ^ 2) ((curveV c).y ^ 2) / 4 := by
    rw [max_comm ((curveU c).y ^ 2) ((curveV c).y ^ 2)]
    exact max_le (sq_div4_le _ _) (sq_combo_le _ _)
  calc _ ≤ max ((curveU c).x ^ 2) ((curveV c).x ^ 2) / 4 +
        max ((curveU c).y ^ 2) ((curveV c).y ^ 2) / 4 := add_le_add hx hy
    _ = _ := by ring

theorem flattenRun_add (P : FlattenParams) (a b : Nat) (s : FlattenState) :
    flattenRun P (a + b) s = flattenRun P b (flattenRun P a s) := by
  induction a generalizing s with
  | zero => rw [Nat.zero_add]; rfl
  | succ a ih =>
    have h : a + 1 + b = (a + b) + 1 := by omega
    rw [h]
    show flattenRun P (a + b) (flattenStep P s) = flattenRun P b (flattenRun P a (flattenStep P s))
    exact ih (flattenStep P s)

theorem flattenRun_nil (P : FlattenParams) (n : Nat) (acc : FlattenAcc) :
    flattenRun P n ⟨[], acc⟩ = ⟨[], acc⟩ := by
  induction n with
  | zero => rfl
  | succ n ih => exact ih

/-- Metric small enough for the flatness test means the test passes. -/
theorem flatEnough_of_metric_lt (c : _tpGLCurve) (tol : tpFloat)
    (h : _tpGLFlatnessMetric c < 10 * tol * tol) : _tpGLIsCurveFlatEnough c tol = true := by
  simp only [_tpGLIsCurveFlatEnough, Bool.or_eq_true, decide_eq_true_eq]
  exact Or.inr h

/-- Any frame whose metric is below `10·tol²·4^m` is fully processed (popped)
after finitely many loop iterations, whatever lies below it on the stack. -/
theorem flatten_frame_terminates (P : FlattenParams) :
    ∀ (m : Nat) (c : _tpGLCurve) (rest : List _tpGLCurve) (acc : FlattenAcc),
      _tpGLFlatnessMetric c < 10 * P.tol * P.tol * 4 ^ m →
      ∃ (n : Nat) (acc1 : FlattenAcc), flattenRun P n ⟨c :: rest, acc⟩ = ⟨rest, acc1⟩ := by
  intro m
  induction m with
  | zero =>
    intro c rest acc hm
    refine ⟨1, flattenEmit P c acc, ?_⟩
    rw [pow_zero, mul_one] at hm
    have hflat := flatEnough_of_metric_lt c P.tol hm
    show flattenStep P ⟨c :: rest, acc⟩ = _
    simp [flattenStep, hflat]
  | succ m ih =>
    intro c rest acc hm
    by_cases hcase : rest.length < TARP_MAX_CURVE_SUBDIVISIONS - 1 ∧
        ¬_tpGLIsCurveFlatEnough c P.tol
    · have hstep : flattenStep P ⟨c :: rest, acc⟩ =
          ⟨(_tpGLSubdivideCurve c (1/2)).1 :: (_tpGLSubdivideCurve c (1/2)).2 :: rest, acc⟩ := by
        simp [flattenStep, hcase]
      have hml : _tpGLFlatnessMetric (_tpGLSubdivideCurve c (1/2)).1 <
          10 * P.tol * P.tol * 4 ^ m := by
        have := flatnessMetric_subdivLeft c
        have h4 : _tpGLFlatnessMetric c / 4 < 10 * P.tol * P.tol * 4 ^ m := by
          rw [div_lt_iff₀ (by norm_num : (0:ℚ) < 4)]
          calc _ < 10 * P.tol * P.tol * 4 ^ (m + 1) := hm
            _ = 10 * P.tol * P.tol * 4 ^ m * 4 := by ring
        exact lt_of_le_of_lt this h4
      have hmr : _tpGLFlatnessMetric (_tpGLSubdivideCurve c (1/2)).2 <
          10 * P.tol * P.tol * 4 ^ m := by
        have := flatnessMetric_subdivRight c
        have h4 : _tpGLFlatnessMetric c / 4 < 10 * P.tol * P.tol * 4 ^ m := by
          rw [div_lt_iff₀ (by norm_num : (0:ℚ) < 4)]
          calc _ < 10 * P.tol * P.tol * 4 ^ (m + 1) := hm
            _ = 10 * P.tol * P.tol * 4 ^ m * 4 := by ring
        exact lt_of_le_of_lt this h4
      obtain ⟨n1, acc1, h1⟩ :=
        ih (_tpGLSubdivideCurve c (1/2)).1 ((_tpGLSubdivideCurve c (1/2)).2 :: rest) acc hml
      obtain ⟨n2, acc2, h2⟩ := ih (_tpGLSubdivideCurve c (1/2)).2 rest acc1 hmr
      refine ⟨1 + n1 + n2, acc2, ?_⟩
      rw [flattenRun_add, flattenRun_add]
      have hone : flattenRun P 1 ⟨c :: rest, acc⟩ =
          ⟨(_tpGLSubdivideCurve c (1/2)).1 :: (_tpGLSubdivideCurve c (1/2)).2 :: rest, acc⟩ :=
        hstep
      rw [hone, h1, h2]
    · refine ⟨1, flattenEmit P c acc, ?_⟩
      show flattenStep P ⟨c :: rest, acc⟩ = _
      simp only [flattenStep]
      rw [if_neg hcase]

/-- What one fully processed stack frame `c` contributes to the output
accumulators: a non-empty appended vertex block ending in `c.p1`; when the
frame is processed with `bFirstCurve` set, the block starts with `c.p0`,
has at least two vertices, and its first joint flag is `false`. -/
def flattenFrameProps (c : _tpGLCurve) (a a' : FlattenAcc) : Prop :=
  ∃ vs js,
    a'.verts = a.verts ++ vs ∧ a'.joints = a.joints ++ js ∧ vs ≠ [] ∧
    vs.getLast? = some c.p1 ∧
    (a.bFirstCurve = true → vs.head? = some c.p0 ∧ js.head? = some false ∧ 2 ≤ vs.length) ∧
    a'.bFirstCurve = false

theorem flattenEmit_props (P : FlattenParams) (c : _tpGLCurve) (a : FlattenAcc) :
    flattenFrameProps c a (flattenEmit P c a) := by
  by_cases hf : a.bFirstCurve
  · refine ⟨[c.p0, c.p1], [false, tpVec2Equals c.p1 P.orig.p1 && !P.bLastCurve], ?_⟩
    simp [flattenEmit, hf]
  · refine ⟨[c.p1],
      [if P.bIsClosed then tpVec2Equals c.p1 P.orig.p1
       else tpVec2Equals c.p1 P.orig.p1 && !P.bLastCurve], ?_⟩
    simp [flattenEmit, hf]

theorem flattenFrameProps_compose (cl cr c : _tpGLCurve) (a a1 a2 : FlattenAcc)
    (hp0 : cl.p0 = c.p0) (hp1 : cr.p1 = c.p1)
    (h1 : flattenFrameProps cl a a1) (h2 : flattenFrameProps cr a1 a2) :
    flattenFrameProps c a a2 := by
  obtain ⟨vs1, js1, hv1, hj1, hne1, hlast1, hfirst1, hb1⟩ := h1
  obtain ⟨vs2, js2, hv2, hj2, hne2, hlast2, _, hb2⟩ := h2
  refine ⟨vs1 ++ vs2, js1 ++ js2, ?_, ?_, ?_, ?_, ?_, hb2⟩
  · rw [hv2, hv1, List.append_assoc]
  · rw [hj2, hj1, List.append_assoc]
  · simp [hne1]
  · simp [List.getLast?_append, hlast2, hp1]
  · intro hfa
    obtain ⟨hh, hjh, hlen⟩ := hfirst1 hfa
    refine ⟨?_, ?_, ?_⟩
    · cases vs1 with
      | nil => exact absurd rfl hne1
      | cons v t =>
        simp only [List.head?_cons, Option.some.injEq] at hh
        simp [hh, hp0]
    · cases js1 with
      | nil => simp at hjh
      | cons j t => simp at hjh; simp [hjh]
    · calc 2 ≤ vs1.length := hlen
        _ ≤ (vs1 ++ vs2).length := by simp

/-- Decomposition of a completed flattening run: if the loop empties the
stack, then it first pops the top frame `c`, contributing a vertex block
described by `flattenFrameProps`. -/
theorem flattenRun_decompose (P : FlattenParams) :
    ∀ (n : Nat) (c : _tpGLCurve) (rest : List _tpGLCurve) (acc a' : FlattenAcc),
      flattenRun P n ⟨c :: rest, acc⟩ = ⟨[], a'⟩ →
      ∃ (k : Nat) (acc1 : FlattenAcc), k ≤ n ∧
        flattenRun P k ⟨c :: rest, acc⟩ = ⟨rest, acc1⟩ ∧ flattenFrameProps c acc acc1 := by
  intro n
  induction n using Nat.strong_induction_on with
  | _ n ih =>
    intro c rest acc a' hrun
    match n with
    | 0 =>
      exact absurd (congrArg FlattenState.stack hrun) (by simp [flattenRun])
    | Nat.succ m =>
      by_cases hcase : rest.length < TARP_MAX_CURVE_SUBDIVISIONS - 1 ∧
          ¬_tpGLIsCurveFlatEnough c P.tol
      · have hstep : flattenStep P ⟨c :: rest, acc⟩ =
            ⟨(_tpGLSubdivideCurve c (1/2)).1 :: (_tpGLSubdivideCurve c (1/2)).2 :: rest, acc⟩ := by
          simp [flattenStep, hcase]
        have hrun' : flattenRun P m
            ⟨(_tpGLSubdivideCurve c (1/2)).1 :: (_tpGLSubdivideCurve c (1/2)).2 :: rest, acc⟩ =
            ⟨[], a'⟩ := by
          have : flattenRun P (m + 1) ⟨c :: rest, acc⟩ =
              flattenRun P m (flattenStep P ⟨c :: rest, acc⟩) := rfl
          rwa [this, hstep] at hrun
        obtain ⟨k1, acc1, hk1, hrun1, hprops1⟩ :=
          ih m (Nat.lt_succ_self m) (_tpGLSubdivideCurve c (1/2)).1
            ((_tpGLSubdivideCurve c (1/2)).2 :: rest) acc a' hrun'
        have hrun2 : flattenRun P (m - k1)
            ⟨(_tpGLSubdivideCurve c (1/2)).2 :: rest, acc1⟩ = ⟨[], a'⟩ := by
          have hsplit : flattenRun P m
              ⟨(_tpGLSubdivideCurve c (1/2)).1 :: (_tpGLSubdivideCurve c (1/2)).2 :: rest, acc⟩ =
              flattenRun P (m - k1) (flattenRun P k1
                ⟨(_tpGLSubdivideCurve c (1/2)).1 ::
                  (_tpGLSubdivideCurve c (1/2)).2 :: rest, acc⟩) := by
            rw [← flattenRun_add]
            congr 1
            omega
          rw [hsplit, hrun1] at hrun'
          exact hrun'
        obtain ⟨k2, acc2, hk2, hrun2', hprops2⟩ :=
          ih (m - k1) (by omega) (_tpGLSubdivideCurve c (1/2)).2 rest acc1 a' hrun2
        refine ⟨1 + k1 + k2, acc2, by omega, ?_, ?_⟩
        · rw [flattenRun_add, flattenRun_add]
          have hone : flattenRun P 1 ⟨c :: rest, acc⟩ =
              ⟨(_tpGLSubdivideCurve c (1/2)).1 ::
                (_tpGLSubdivideCurve c (1/2)).2 :: rest, acc⟩ := hstep
          rw [hone, hrun1, hrun2']
        · exact flattenFrameProps_compose (_tpGLSubdivideCurve c (1/2)).1
            (_tpGLSubdivideCurve c (1/2)).2 c acc acc1 acc2 rfl rfl hprops1 hprops2
      · refine ⟨1, flattenEmit P c acc, by omega, ?_, flattenEmit_props P c acc⟩
        show flattenStep P ⟨c :: rest, acc⟩ = _
        simp only [flattenStep]
        rw [if_neg hcase]

/-- A successful `_tpGLFlattenCurve` call contributes exactly one frame
block for the original curve. -/
theorem flattenCurve_props (P : FlattenParams) (fuel : Nat) (acc a' : FlattenAcc)
    (h : _tpGLFlattenCurve P fuel acc = some a') : flattenFrameProps P.orig acc a' := by
  simp only [_tpGLFlattenCurve] at h
  by_cases hs : (flattenRun P fuel ⟨[P.orig], acc⟩).stack = []
  · rw [if_pos hs] at h
    have hrun : flattenRun P fuel ⟨[P.orig], acc⟩ = ⟨[], a'⟩ := by
      have := Option.some.inj h
      cases heq : flattenRun P fuel ⟨[P.orig], acc⟩ with
      | mk st ac =>
        rw [heq] at hs this
        simp at hs this
        rw [hs, this]
    obtain ⟨k, acc1, _, hrunk, hprops⟩ := flattenRun_decompose P fuel P.orig [] acc a' hrun
    have : flattenRun P fuel ⟨[P.orig], acc⟩ =
        flattenRun P (fuel - k) (flattenRun P k ⟨[P.orig], acc⟩) := by
      rw [← flattenRun_add]
      congr 1
      omega
    rw [hrunk, flattenRun_nil] at this
    rw [hrun] at this
    have hacc : a' = acc1 := congrArg FlattenState.acc this
    rwa [hacc]
  · rw [if_neg hs] at h
    exact absurd h (by simp)

/-! ### Contours (`_tpGLFlattenContour`) -/

/-- `tpSegment`: `handleIn`, `position`, `handleOut`. -/
structure tpSegment where
  handleIn : tpVec2
  position : tpVec2
  handleOut : tpVec2
deriving DecidableEq, Repr

/-- `tpSegmentMake(h0x, h0y, px, py, h1x, h1y)`. -/
def tpSegmentMake (h0x h0y px py h1x h1y : tpFloat) : tpSegment :=
  ⟨tpVec2Make h0x h0y, tpVec2Make px py, tpVec2Make h1x h1y⟩

/-- `_tpGLContour` (the render-cache offset fields, written by other
routines than the ones embedded here, are omitted). -/
structure _tpGLContour where
  segments : List tpSegment
  bDirty : Bool
  bIsClosed : Bool
  bLengthDirty : Bool
  /-- `-1` when the contour has no segments yet (C sentinel). -/
  lastSegmentIndex : Int
deriving DecidableEq, Repr

/-- `_tpGLRenderCacheContour` -/
structure _tpGLRenderCacheContour where
  fillVertexOffset : Nat
  fillVertexCount : Nat
  strokeVertexOffset : Nat
  strokeVertexCount : Nat
  bIsClosed : Bool
deriving DecidableEq, Repr

/-- A point as emitted by the flattener: transformed when a transform is
present, untouched otherwise. -/
def xfPos (trafo : Option tpTransform) (p : tpVec2) : tpVec2 :=
  match trafo with
  | none => p
  | some tr => tpTransformApply tr p

/-- The `if (_transform)` block of `_tpGLFlattenContour`: transform the
built cubic, reusing `lastTransformedPos` (`ltp`) for `p0` when it has
been set by a previous iteration. -/
def contourCurve (trafo : Option tpTransform) (ltp : Option tpVec2)
    (raw : _tpGLCurve) : _tpGLCurve :=
  match trafo with
  | none => raw
  | some tr =>
    ⟨ltp.getD (tpTransformApply tr raw.p0), tpTransformApply tr raw.h0,
     tpTransformApply tr raw.h1, tpTransformApply tr raw.p1⟩

theorem contourCurve_p1 (trafo : Option tpTransform) (ltp : Option tpVec2)
    (raw : _tpGLCurve) : (contourCurve trafo ltp raw).p1 = xfPos trafo raw.p1 := by
  cases trafo <;> simp [contourCurve, xfPos]

theorem contourCurve_p0_of_none (trafo : Option tpTransform) (raw : _tpGLCurve) :
    (contourCurve trafo none raw).p0 = xfPos trafo raw.p0 := by
  cases trafo <;> simp [contourCurve, xfPos]

/-- The `for (j = 1; ...)` loop of `_tpGLFlattenContour`: walk consecutive
segment pairs, build the cubic `(last.position, last.handleOut,
current.handleIn, current.position)`, transform it, flatten it.
`_bFirstCurve` is `j == 1`, `_bLastCurve` is always false here;
`lastTransformedPos` is updated to the transformed `p1` when a transform
is present. -/
def flattenContourLoop (tol : tpFloat) (closed : Bool) (trafo : Option tpTransform)
    (fuel : Nat) :
    List tpSegment → tpSegment → Option tpVec2 → Bool → FlattenAcc →
    Option (FlattenAcc × tpSegment × Option tpVec2)
  | [], last, ltp, _, acc => some (acc, last, ltp)
  | current :: remaining, last, ltp, bFirst, acc =>
    let curve := contourCurve trafo ltp
      ⟨last.position, last.handleOut, current.handleIn, current.position⟩
    let ltp2 : Option tpVec2 :=
      match trafo with
      | none => ltp
      | some _ => some curve.p1
    match _tpGLFlattenCurve ⟨curve, tol, closed, false⟩ fuel
        { acc with bFirstCurve := bFirst } with
    | none => none
    | some acc1 => flattenContourLoop tol closed trafo fuel remaining current ltp2 false acc1

/-- `_tpGLFlattenContour`.  The closing-curve guard
`tpVec2Distance(first, last) > FLT_EPSILON` is embedded squared
(`dist² > FLT_EPSILON²`, equivalent for the nonnegative float distance).
For a contour with no segments neither the loop nor the closing-curve
branch runs (`segments.count` is zero in the guard). -/
def _tpGLFlattenContour (fuel : Nat) (contour : _tpGLContour) (tol : tpFloat)
    (trafo : Option tpTransform) (outVerts : List tpVec2) (outJoints : List Bool) :
    Option (FlattenAcc × _tpGLRenderCacheContour) :=
  match contour.segments with
  | [] =>
    some (⟨outVerts, outJoints, _tpGLInitBounds, 0, true⟩,
      ⟨outVerts.length, 0, 0, 0, contour.bIsClosed⟩)
  | s0 :: remaining =>
    match flattenContourLoop tol contour.bIsClosed trafo fuel remaining s0 none true
        ⟨outVerts, outJoints, _tpGLInitBounds, 0, true⟩ with
    | none => none
    | some (acc1, lastSeg, ltp) =>
      if contour.bIsClosed = true ∧
          FLT_EPSILON ^ 2 < tpVec2DistanceSquared s0.position lastSeg.position then
        -- the C reads `lastTransformedPos` unconditionally in this branch;
        -- it is initialized whenever the branch runs (the guard forces at
        -- least two segments, so the loop ran at least once)
        let curve := contourCurve trafo ltp
          ⟨lastSeg.position, lastSeg.handleOut, s0.handleIn, s0.position⟩
        match _tpGLFlattenCurve ⟨curve, tol, contour.bIsClosed, true⟩ fuel
            { acc1 with bFirstCurve := false } with
        | none => none
        | some acc2 =>
          some (acc2, ⟨outVerts.length, acc2.vertexCount, 0, 0, contour.bIsClosed⟩)
      else
        some (acc1, ⟨outVerts.length, acc1.vertexCount, 0, 0, contour.bIsClosed⟩)

/-- Structure of what the segment loop of `_tpGLFlattenContour` appends:
vertices are only appended; with at least one segment pair and
`bFirst = true` the first appended vertex is the transformed start
position with joint flag `false` and at least two vertices appear; the
last appended vertex is the transformed position of the final segment. -/
theorem flattenContourLoop_props (tol : tpFloat) (closed : Bool)
    (trafo : Option tpTransform) (fuel : Nat) :
    ∀ (remaining : List tpSegment) (last : tpSegment) (ltp : Option tpVec2)
      (bFirst : Bool) (acc acc' : FlattenAcc) (last' : tpSegment) (ltp' : Option tpVec2),
      (bFirst = true → ltp = none) →
      flattenContourLoop tol closed trafo fuel remaining last ltp bFirst acc =
        some (acc', last', ltp') →
      ∃ vs js, acc'.verts = acc.verts ++ vs ∧ acc'.joints = acc.joints ++ js ∧
        (remaining = [] → acc' = acc ∧ last' = last) ∧
        (remaining ≠ [] → bFirst = true →
          vs.head? = some (xfPos trafo last.position) ∧ js.head? = some false ∧
            2 ≤ vs.length) ∧
        (remaining ≠ [] → vs.getLast? = some (xfPos trafo last'.position) ∧
          last' = remaining.getLast?.getD last) := by
  intro remaining
  induction remaining with
  | nil =>
    intro last ltp bFirst acc acc' last' ltp' _ hrun
    simp only [flattenContourLoop, Option.some.injEq, Prod.mk.injEq] at hrun
    obtain ⟨h1, h2, h3⟩ := hrun
    exact ⟨[], [], by simp [← h1], by simp [← h1], fun _ => ⟨h1.symm, h2.symm⟩,
      fun h => absurd rfl h, fun h => absurd rfl h⟩
  | cons current rem ih =>
    intro last ltp bFirst acc acc' last' ltp' hltp hrun
    simp only [flattenContourLoop] at hrun
    cases hflat : _tpGLFlattenCurve
        ⟨contourCurve trafo ltp
          ⟨last.position, last.handleOut, current.handleIn, current.position⟩,
          tol, closed, false⟩ fuel { acc with bFirstCurve := bFirst } with
    | none => rw [hflat] at hrun; exact absurd hrun (by simp)
    | some acc1 =>
      rw [hflat] at hrun
      have hprops := flattenCurve_props _ fuel _ acc1 hflat
      obtain ⟨vs1, js1, hv1, hj1, hne1, hlast1, hfirst1, _⟩ := hprops
      obtain ⟨vs2, js2, hv2, hj2, hnilcase, _, hlastcase⟩ :=
        ih current _ false acc1 acc' last' ltp' (by simp) hrun
      have hcp1 : (contourCurve trafo ltp
          ⟨last.position, last.handleOut, current.handleIn, current.position⟩).p1 =
          xfPos trafo current.position := contourCurve_p1 trafo ltp _
      refine ⟨vs1 ++ vs2, js1 ++ js2, ?_, ?_, ?_, ?_, ?_⟩
      · rw [hv2, hv1]; simp [List.append_assoc]
      · rw [hj2, hj1]; simp [List.append_assoc]
      · intro h; exact absurd h (by simp)
      · intro _ hbf
        obtain ⟨hh, hjh, hlen⟩ := hfirst1 (by simpa using hbf)
        have hcp0 : (contourCurve trafo ltp
            ⟨last.position, last.handleOut, current.handleIn, current.position⟩).p0 =
            xfPos trafo last.position := by
          rw [hltp hbf]
          exact contourCurve_p0_of_none trafo _
        refine ⟨?_, ?_, ?_⟩
        · cases vs1 with
          | nil => exact absurd rfl hne1
          | cons v t =>
            simp only [List.head?_cons, Option.some.injEq] at hh
            simp only [List.cons_append, List.head?_cons, Option.some.injEq]
            rw [hh, hcp0]
        · cases js1 with
          | nil => simp at hjh
          | cons j t => simp at hjh; simp [hjh]
        · calc 2 ≤ vs1.length := hlen
            _ ≤ (vs1 ++ vs2).length := by simp
      · intro _
        by_cases hrem : rem = []
        · subst hrem
          obtain ⟨hacc, hlast'⟩ := hnilcase rfl
          have hvs2 : vs2 = [] := by
            have h := hv2
            rw [hacc] at h
            exact List.self_eq_append_right.mp h
          subst hvs2
          constructor
          · rw [List.append_nil, hlast1, hcp1, hlast']
          · simp [hlast']
        · obtain ⟨hl2, hl2'⟩ := hlastcase hrem
          have hvs2ne : vs2 ≠ [] := by
            intro h; rw [h] at hl2; simp at hl2
          constructor
          · simp [List.getLast?_append, hl2]
          · rw [hl2']
            cases rem with
            | nil => exact absurd rfl hrem
            | cons a t =>
              simp only [List.getLast?_cons_cons]
              cases hg : (a :: t).getLast? with
              | none => simp at hg
              | some b => rfl

/-- C2 (amended): for every contour flattened by the flattener, the joint
flag of the first produced vertex is `false`, and at least 2 vertices are
produced iff the contour has at least 2 segments.  For a closed contour
the last produced vertex equals the first *provided* the first and last
segment positions are either equal or farther apart than `FLT_EPSILON`
(the original claim fails in the gap `0 < dist ≤ FLT_EPSILON`, where the
closing curve is skipped: see the counterexample). -/
theorem claim_C2 (fuel : Nat) (contour : _tpGLContour) (tol : tpFloat)
    (trafo : Option tpTransform) (acc : FlattenAcc) (rc : _tpGLRenderCacheContour)
    (h : _tpGLFlattenContour fuel contour tol trafo [] [] = some (acc, rc))
    (hpos : ∀ s0 sl, contour.segments.head? = some s0 →
      contour.segments.getLast? = some sl → contour.bIsClosed = true →
      s0.position = sl.position ∨
        FLT_EPSILON ^ 2 < tpVec2DistanceSquared s0.position sl.position) :
    (acc.verts ≠ [] → acc.joints.head? = some false) ∧
    (2 ≤ acc.verts.length ↔ 2 ≤ contour.segments.length) ∧
    (contour.bIsClosed = true → acc.verts.getLast? = acc.verts.head?) := by
  cases hseg : contour.segments with
  | nil =>
    simp only [_tpGLFlattenContour, hseg, Option.some.injEq, Prod.mk.injEq] at h
    obtain ⟨ha, _⟩ := h
    rw [← ha]
    refine ⟨fun hne => absurd rfl hne, ?_, fun _ => rfl⟩
    simp [hseg]
  | cons s0 remaining =>
    simp only [_tpGLFlattenContour, hseg] at h
    split at h
    · exact absurd h (by simp)
    case _ acc1 lastSeg ltp hloop =>
      obtain ⟨vs, js, hv, hj, hnil, hfirst, hlast⟩ :=
        flattenContourLoop_props tol contour.bIsClosed trafo fuel remaining s0 none true
          ⟨[], [], _tpGLInitBounds, 0, true⟩ acc1 lastSeg ltp (fun _ => rfl) hloop
      simp only [List.nil_append] at hv hj
      split at h
      case isTrue hguard =>
        have hremne : remaining ≠ [] := by
          intro hre
          obtain ⟨-, hls⟩ := hnil hre
          rw [hls] at hguard
          have hzero : tpVec2DistanceSquared s0.position s0.position = 0 := by
            simp [tpVec2DistanceSquared, tpVec2Sub, tpVec2LengthSquared]
          rw [hzero] at hguard
          have heps : (0:ℚ) < FLT_EPSILON ^ 2 := by norm_num [FLT_EPSILON]
          exact absurd hguard.2 (by linarith)
        obtain ⟨hh, hjh, hlen⟩ := hfirst hremne rfl
        obtain ⟨hvlast, -⟩ := hlast hremne
        split at h
        · exact absurd h (by simp)
        case _ acc2 hclose =>
          simp only [Option.some.injEq, Prod.mk.injEq] at h
          obtain ⟨ha, -⟩ := h
          obtain ⟨cvs, cjs, hcv, hcj, hcne, hclast, -, -⟩ :=
            flattenCurve_props _ fuel _ acc2 hclose
          simp only at hcv hcj
          rw [← ha, hcv, hcj, hv, hj]
          have hvsne : vs ≠ [] := by
            intro hx; rw [hx] at hlen; simp at hlen
          refine ⟨fun _ => ?_, ?_, fun _ => ?_⟩
          · cases js with
            | nil => simp at hjh
            | cons j t =>
              simp only [List.head?_cons, Option.some.injEq] at hjh
              simp [hjh]
          · constructor
            · intro _
              cases remaining with
              | nil => exact absurd rfl hremne
              | cons a t => simp
            · intro _
              calc 2 ≤ vs.length := hlen
                _ ≤ (vs ++ cvs).length := by simp
          · rw [List.getLast?_append, hclast]
            have hcp1 : (contourCurve trafo ltp
                ⟨lastSeg.position, lastSeg.handleOut, s0.handleIn, s0.position⟩).p1 =
                xfPos trafo s0.position := contourCurve_p1 trafo ltp _
            cases vs with
            | nil => exact absurd rfl hvsne
            | cons v t =>
              simp only [List.head?_cons, Option.some.injEq] at hh
              simp only [List.cons_append, List.head?_cons, Option.some.injEq, Option.or_some]
              rw [hcp1, hh]
      case isFalse hguard =>
        simp only [Option.some.injEq, Prod.mk.injEq] at h
        obtain ⟨ha, -⟩ := h
        rw [← ha, hv, hj]
        by_cases hrem : remaining = []
        · obtain ⟨hacc, -⟩ := hnil hrem
          have hvs : vs = [] := by
            have hx := hv
            rw [hacc] at hx
            simpa using hx.symm
          have hjs : js = [] := by
            have hx := hj
            rw [hacc] at hx
            simpa using hx.symm
          subst hvs hjs
          refine ⟨fun hne => absurd rfl hne, ?_, fun _ => rfl⟩
          simp [hrem]
        · obtain ⟨hh, hjh, hlen⟩ := hfirst hrem rfl
          obtain ⟨hvlast, hlseq⟩ := hlast hrem
          refine ⟨fun _ => ?_, ?_, fun hcl => ?_⟩
          · cases js with
            | nil => simp at hjh
            | cons j t =>
              simp only [List.head?_cons, Option.some.injEq] at hjh
              simp [hjh]
          · constructor
            · intro _
              cases remaining with
              | nil => exact absurd rfl hrem
              | cons a t => simp
            · intro _
              simpa using hlen
          · -- the guard failed with `bIsClosed = true`, so the two end
            -- positions are within FLT_EPSILON; the hypothesis forces equality
            have hfar : ¬FLT_EPSILON ^ 2 <
                tpVec2DistanceSquared s0.position lastSeg.position := by
              intro hx; exact hguard ⟨hcl, hx⟩
            have hlastseg : contour.segments.getLast? = some lastSeg := by
              rw [hseg]
              cases hrl : remaining.getLast? with
              | none => exact absurd (by simpa using hrl) hrem
              | some b =>
                rw [hlseq, hrl]
                cases remaining with
                | nil => exact absurd rfl hrem
                | cons a t => simp only [List.getLast?_cons_cons]; rw [← hrl]; rfl
            have hs0 : contour.segments.head? = some s0 := by rw [hseg]; rfl
            have hor := hpos s0 lastSeg hs0 hlastseg hcl
            have hpeq : s0.position = lastSeg.position := hor.resolve_right hfar
            rw [hvlast, ← hpeq]
            cases vs with
            | nil => simp at hlen
            | cons v t =>
              simp only [List.head?_cons, Option.some.injEq] at hh
              simp [hh]

/-- A closed two-segment contour whose end positions differ by `2^-24`
(positive but below `FLT_EPSILON`), all handles at the positions. -/
def c2CounterContour : _tpGLContour where
  segments :=
    [⟨⟨0, 0⟩, ⟨0, 0⟩, ⟨0, 0⟩⟩,
     ⟨⟨1 / 2 ^ 24, 0⟩, ⟨1 / 2 ^ 24, 0⟩, ⟨1 / 2 ^ 24, 0⟩⟩]
  bDirty := true
  bIsClosed := true
  bLengthDirty := true
  lastSegmentIndex := 1

/-- C2 counterexample: flattening the closed contour `c2CounterContour`
completes, but the last produced vertex `(2^-24, 0)` differs from the
first produced vertex `(0, 0)`: the closing curve is skipped because the
end positions are within `FLT_EPSILON` of each other without being equal,
falsifying "for a closed contour the last produced vertex equals the
first produced vertex". -/
theorem claim_C2_counterexample :
    c2CounterContour.bIsClosed = true ∧
    (_tpGLFlattenContour 4 c2CounterContour (15/100) none [] []).map
        (fun p => (p.1.verts.head?, p.1.verts.getLast?)) =
      some (some ⟨0, 0⟩, some ⟨1 / 2 ^ 24, 0⟩) ∧
    (⟨1 / 2 ^ 24, 0⟩ : tpVec2) ≠ ⟨0, 0⟩ := by
  refine ⟨rfl, ?_, ?_⟩
  · norm_num [_tpGLFlattenContour, c2CounterContour, flattenContourLoop, contourCurve,
      _tpGLFlattenCurve, flattenRun, flattenStep, flattenEmit, _tpGLIsCurveFlatEnough,
      _tpGLIsCurveLinear, _tpGLIsClose, _tpGLFlatnessMetric, _tpGLSubdivideCurve,
      tpVec2Lerp, tpVec2Add, tpVec2MultScalar, tpVec2Equals, _tpGLEvaluatePointForBounds,
      _tpGLInitBounds, FLT_EPSILON, FLT_MAX, TARP_MAX_CURVE_SUBDIVISIONS,
      tpVec2DistanceSquared, tpVec2LengthSquared, tpVec2Sub, xfPos]
  · intro h
    have hx : (1 / 2 ^ 24 : ℚ) = 0 := congrArg tpVec2.x h
    norm_num at hx

/-- An ordinary closed two-segment contour for the witness: positions
`(0,0)` and `(1,0)`, farther apart than `FLT_EPSILON`. -/
def c2WitnessContour : _tpGLContour where
  segments :=
    [⟨⟨0, 0⟩, ⟨0, 0⟩, ⟨0, 0⟩⟩, ⟨⟨1, 0⟩, ⟨1, 0⟩, ⟨1, 0⟩⟩]
  bDirty := true
  bIsClosed := true
  bLengthDirty := true
  lastSegmentIndex := 1

/-- The flattening result for `c2WitnessContour`. -/
def c2WitnessAcc : FlattenAcc :=
  ⟨[⟨0, 0⟩, ⟨1, 0⟩, ⟨0, 0⟩], [false, true, true], ⟨⟨0, 0⟩, ⟨1, 0⟩⟩, 3, false⟩

/-- Witness for `claim_C2` at the concrete contour `c2WitnessContour`. -/
theorem claim_C2_witness :
    _tpGLFlattenContour 4 c2WitnessContour (15/100) none [] [] =
      some (c2WitnessAcc, ⟨0, 3, 0, 0, true⟩) ∧
    ((c2WitnessAcc.verts ≠ [] → c2WitnessAcc.joints.head? = some false) ∧
     (2 ≤ c2WitnessAcc.verts.length ↔ 2 ≤ c2WitnessContour.segments.length) ∧
     (c2WitnessContour.bIsClosed = true →
       c2WitnessAcc.verts.getLast? = c2WitnessAcc.verts.head?)) :=
  have hrun : _tpGLFlattenContour 4 c2WitnessContour (15/100) none [] [] =
      some (c2WitnessAcc, ⟨0, 3, 0, 0, true⟩) := by
    norm_num [_tpGLFlattenContour, c2WitnessContour, c2WitnessAcc, flattenContourLoop,
      contourCurve, _tpGLFlattenCurve, flattenRun, flattenStep, flattenEmit,
      _tpGLIsCurveFlatEnough, _tpGLIsCurveLinear, _tpGLIsClose, _tpGLFlatnessMetric,
      _tpGLSubdivideCurve, tpVec2Lerp, tpVec2Add, tpVec2MultScalar, tpVec2Equals,
      _tpGLEvaluatePointForBounds, _tpGLInitBounds, FLT_EPSILON, FLT_MAX,
      TARP_MAX_CURVE_SUBDIVISIONS, tpVec2DistanceSquared, tpVec2LengthSquared,
      tpVec2Sub, xfPos]
  ⟨hrun,
    claim_C2 4 c2WitnessContour (15/100) none c2WitnessAcc ⟨0, 3, 0, 0, true⟩ hrun
      (fun s0 sl h0 hl _ => by
        simp only [c2WitnessContour, List.head?_cons, Option.some.injEq] at h0
        simp only [c2WitnessContour] at hl
        have hsl : sl = ⟨⟨1, 0⟩, ⟨1, 0⟩, ⟨1, 0⟩⟩ := by
          have hgl : ([⟨⟨0, 0⟩, ⟨0, 0⟩, ⟨0, 0⟩⟩,
              ⟨⟨1, 0⟩, ⟨1, 0⟩, ⟨1, 0⟩⟩] : List tpSegment).getLast? =
              some ⟨⟨1, 0⟩, ⟨1, 0⟩, ⟨1, 0⟩⟩ := rfl
          rw [hgl] at hl
          exact (Option.some.inj hl).symm
        subst hsl
        rw [← h0]
        refine Or.inr ?_
        norm_num [tpVec2DistanceSquared, tpVec2LengthSquared, tpVec2Sub, FLT_EPSILON])
⟩

/-- Spec-side definition: the cubic Bézier point of the data model's
implied cubic `(p0, h0, h1, p1)` at parameter `t` (Bernstein form). -/
def cubicBezierPoint (c : _tpGLCurve) (t : tpFloat) : tpVec2 :=
  ⟨c.p0.x * (1 - t) ^ 3 + c.h0.x * 3 * (1 - t) ^ 2 * t + c.h1.x * 3 * (1 - t) * t ^ 2 +
     c.p1.x * t ^ 3,
   c.p0.y * (1 - t) ^ 3 + c.h0.y * 3 * (1 - t) ^ 2 * t + c.h1.y * 3 * (1 - t) * t ^ 2 +
     c.p1.y * t ^ 3⟩

/-- C8: for positive tolerance the subdivision loop terminates; the
explicit stack never holds more than `TARP_MAX_CURVE_SUBDIVISIONS = 16`
curves; subdivision bisects at `t = 0.5` via de Casteljau (the left half
is the `[0, 1/2]` reparametrization, pushed on top; the right half the
`[1/2, 1]` reparametrization, replacing the current frame); and on depth
exhaustion the current curve is emitted as-is. -/
theorem claim_C8 (P : FlattenParams) (acc : FlattenAcc) (htol : 0 < P.tol) :
    (∃ fuel a', _tpGLFlattenCurve P fuel acc = some a') ∧
    (∀ n, (flattenRun P n ⟨[P.orig], acc⟩).stack.length ≤ TARP_MAX_CURVE_SUBDIVISIONS) ∧
    (∀ c t, cubicBezierPoint (_tpGLSubdivideCurve c (1/2)).1 t = cubicBezierPoint c (t / 2) ∧
        cubicBezierPoint (_tpGLSubdivideCurve c (1/2)).2 t =
          cubicBezierPoint c ((1 + t) / 2)) ∧
    (∀ cur rest a, TARP_MAX_CURVE_SUBDIVISIONS - 1 ≤ rest.length →
        flattenStep P ⟨cur :: rest, a⟩ = ⟨rest, flattenEmit P cur a⟩) ∧
    (∀ cur rest a, rest.length < TARP_MAX_CURVE_SUBDIVISIONS - 1 →
        ¬_tpGLIsCurveFlatEnough cur P.tol →
        flattenStep P ⟨cur :: rest, a⟩ =
          ⟨(_tpGLSubdivideCurve cur (1/2)).1 :: (_tpGLSubdivideCurve cur (1/2)).2 :: rest,
            a⟩) := by
  refine ⟨?_, ?_, ?_, ?_, ?_⟩
  · have hB : (0:ℚ) < 10 * P.tol * P.tol := by nlinarith
    obtain ⟨m, hm⟩ := pow_unbounded_of_one_lt
      (_tpGLFlatnessMetric P.orig / (10 * P.tol * P.tol)) (by norm_num : (1:ℚ) < 4)
    have hmetric : _tpGLFlatnessMetric P.orig < 10 * P.tol * P.tol * 4 ^ m := by
      rw [div_lt_iff₀ hB] at hm
      calc _ < 4 ^ m * (10 * P.tol * P.tol) := hm
        _ = 10 * P.tol * P.tol * 4 ^ m := by ring
    obtain ⟨n, acc1, hn⟩ := flatten_frame_terminates P m P.orig [] acc hmetric
    refine ⟨n, acc1, ?_⟩
    simp [_tpGLFlattenCurve, hn]
  · intro n
    have hstep : ∀ s : FlattenState, s.stack.length ≤ TARP_MAX_CURVE_SUBDIVISIONS →
        (flattenStep P s).stack.length ≤ TARP_MAX_CURVE_SUBDIVISIONS := by
      intro s hs
      match s with
      | ⟨[], a⟩ => exact hs
      | ⟨cur :: rest, a⟩ =>
        simp only [flattenStep]
        split
        case isTrue hc =>
          simp only [List.length_cons]
          simp only [TARP_MAX_CURVE_SUBDIVISIONS] at hc ⊢
          omega
        case isFalse =>
          simp only [List.length_cons] at hs
          simp only [List.length]
          omega
    induction n with
    | zero => simp [flattenRun, TARP_MAX_CURVE_SUBDIVISIONS]
    | succ n ihn =>
      have : flattenRun P (n + 1) ⟨[P.orig], acc⟩ =
          flattenStep P (flattenRun P n ⟨[P.orig], acc⟩) := by
        have hcomm : n + 1 = n + 1 := rfl
        rw [show n + 1 = n + 1 from rfl]
        calc flattenRun P (n + 1) ⟨[P.orig], acc⟩
            = flattenRun P 1 (flattenRun P n ⟨[P.orig], acc⟩) := by
              rw [← flattenRun_add]
          _ = flattenStep P (flattenRun P n ⟨[P.orig], acc⟩) := rfl
      rw [this]
      exact hstep _ ihn
  · intro c t
    constructor <;>
      · simp only [cubicBezierPoint, _tpGLSubdivideCurve, tpVec2Lerp, tpVec2Add,
          tpVec2MultScalar, tpVec2.mk.injEq]
        constructor <;> ring
  · intro cur rest a hlen
    simp only [flattenStep]
    rw [if_neg]
    intro hc
    omega
  · intro cur rest a hlen hflat
    simp only [flattenStep]
    rw [if_pos ⟨hlen, hflat⟩]

/-- Concrete inputs for the `claim_C8` witness. -/
def c8Params : FlattenParams :=
  ⟨⟨⟨0, 0⟩, ⟨0, 10⟩, ⟨10, 10⟩, ⟨10, 0⟩⟩, 1, false, false⟩

/-- Witness for `claim_C8` at a concrete curve and tolerance `1`. -/
theorem claim_C8_witness :
    0 < c8Params.tol ∧
    ((∃ fuel a', _tpGLFlattenCurve c8Params fuel ⟨[], [], _tpGLInitBounds, 0, true⟩ =
        some a') ∧
     (∀ n, (flattenRun c8Params n
        ⟨[c8Params.orig], ⟨[], [], _tpGLInitBounds, 0, true⟩⟩).stack.length ≤
          TARP_MAX_CURVE_SUBDIVISIONS) ∧
     (∀ c t, cubicBezierPoint (_tpGLSubdivideCurve c (1/2)).1 t =
          cubicBezierPoint c (t / 2) ∧
        cubicBezierPoint (_tpGLSubdivideCurve c (1/2)).2 t =
          cubicBezierPoint c ((1 + t) / 2)) ∧
     (∀ cur rest a, TARP_MAX_CURVE_SUBDIVISIONS - 1 ≤ rest.length →
        flattenStep c8Params ⟨cur :: rest, a⟩ = ⟨rest, flattenEmit c8Params cur a⟩) ∧
     (∀ cur rest a, rest.length < TARP_MAX_CURVE_SUBDIVISIONS - 1 →
        ¬_tpGLIsCurveFlatEnough cur c8Params.tol →
        flattenStep c8Params ⟨cur :: rest, a⟩ =
          ⟨(_tpGLSubdivideCurve cur (1/2)).1 :: (_tpGLSubdivideCurve cur (1/2)).2 :: rest,
            a⟩)) :=
  ⟨by norm_num [c8Params],
   claim_C8 c8Params ⟨[], [], _tpGLInitBounds, 0, true⟩ (by norm_num [c8Params])⟩

/-! ## Path builder API (`tpPathMoveTo`, `tpPathLineTo`, ..., `tpPathClose`) -/

/-- `#define TARP_PI 3.14159265358979323846f` — the value the literal
rounds to in IEEE single precision. -/
def TARP_PI : ℚ := 13176795 / 2 ^ 22

/-- `#define TARP_HALF_PI (TARP_PI * 0.5f)` -/
def TARP_HALF_PI : ℚ := TARP_PI * (1/2)

/-- Rational stand-ins for the float math functions whose *values* flow
into results (`sqrtf`, `sinf`, `cosf`, `acosf`).  Claims about code paths
that use these are proved either for all stand-ins or at inputs whose
square roots are exact (see `exactFloatOps`). -/
structure FloatOps where
  sqrtQ : ℚ → ℚ
  sinQ : ℚ → ℚ
  cosQ : ℚ → ℚ
  acosQ : ℚ → ℚ

/-- Exact rational square root for arguments that are squares of
rationals (numerator and denominator perfect squares); meaningless
otherwise.  All concrete evaluations below only take square roots of
perfect squares. -/
def ratSqrt (q : ℚ) : ℚ := (Nat.sqrt q.num.toNat : ℚ) / (Nat.sqrt q.den : ℚ)

/-- Concrete `FloatOps` for evaluations: exact square roots on perfect
squares; the trigonometric stand-ins are irrelevant on the evaluated
paths and fixed to zero. -/
def exactFloatOps : FloatOps := ⟨ratSqrt, fun _ => 0, fun _ => 0, fun _ => 0⟩

/-- Truncation toward zero, the C `(int)` cast of a float. -/
def ratTrunc (q : ℚ) : Int := q.num / (q.den : Int)

/-- `_tpGLPath` (fields of the render cache and paint transforms, not
touched by the embedded operations, are omitted). -/
structure _tpGLPath where
  contours : List _tpGLContour
  /-- `-1` when no contour is current. -/
  currentContourIndex : Int
  bPathGeometryDirty : Bool
deriving DecidableEq, Repr

/-- `tpPathCreate` (observable builder state). -/
def tpPathCreate : _tpGLPath := ⟨[], -1, true⟩

/-- `_tpGLCurrentContour`: the current contour and its index, when set. -/
def _tpGLCurrentContour (p : _tpGLPath) : Option (Nat × _tpGLContour) :=
  if p.currentContourIndex = -1 then none
  else
    match p.contours.get? p.currentContourIndex.toNat with
    | some c => some (p.currentContourIndex.toNat, c)
    | none => none

/-- `_tpGLPathCreateNextContour` -/
def _tpGLPathCreateNextContour (p : _tpGLPath) : _tpGLPath × Nat :=
  ({ p with
      contours := p.contours ++ [⟨[], true, false, true, -1⟩]
      currentContourIndex := p.contours.length },
   p.contours.length)

/-- `_tpGLPathNextEmptyContour` -/
def _tpGLPathNextEmptyContour (p : _tpGLPath) : _tpGLPath × Nat :=
  match _tpGLCurrentContour p with
  | none => _tpGLPathCreateNextContour p
  | some (i, c) =>
    if c.segments.length ≠ 0 then _tpGLPathCreateNextContour p else (p, i)

/-- `_tpGLContourAddSegments` (the allocation-failure branch cannot occur
in the model; lists always grow). -/
def _tpGLContourAddSegments (p : _tpGLPath) (ci : Nat) (segs : List tpSegment) :
    Bool × _tpGLPath :=
  match p.contours.get? ci with
  | none => (false, p)
  | some c =>
    (false,
     { p with
        contours := p.contours.set ci
          { c with
              segments := c.segments ++ segs
              lastSegmentIndex := (c.segments.length + segs.length : Int) - 1
              bDirty := true }
        bPathGeometryDirty := true })

/-- `_tpGLContourAddSegment` -/
def _tpGLContourAddSegment (p : _tpGLPath) (ci : Nat)
    (h0x h0y px py h1x h1y : tpFloat) : Bool × _tpGLPath :=
  _tpGLContourAddSegments p ci [tpSegmentMake h0x h0y px py h1x h1y]

/-- The builder-misuse error message shared by `tpPathLineTo`,
`tpPathCubicCurveTo` and `tpPathQuadraticCurveTo`. -/
def tpBuilderErrorMessage : String :=
  "You have to start a contour before issuing this command (see tpPathMoveTo)."

/-- `tpPathMoveTo` -/
def tpPathMoveTo (p : _tpGLPath) (err : Option String) (x y : tpFloat) :
    Bool × _tpGLPath × Option String :=
  let (p1, ci) := _tpGLPathNextEmptyContour p
  let (r, p2) := _tpGLContourAddSegment p1 ci x y x y x y
  (r, p2, err)

/-- `tpPathLineTo`: errors when no contour has been started. -/
def tpPathLineTo (p : _tpGLPath) (err : Option String) (x y : tpFloat) :
    Bool × _tpGLPath × Option String :=
  match _tpGLCurrentContour p with
  | none => (true, p, some tpBuilderErrorMessage)
  | some (ci, c) =>
    if c.lastSegmentIndex = -1 then (true, p, some tpBuilderErrorMessage)
    else
      let (r, p2) := _tpGLContourAddSegment p ci x y x y x y
      (r, p2, err)

/-- Replace the `handleOut` of the current contour's last segment
(`_tpSegmentArrayAtPtr(&c->segments, c->lastSegmentIndex)->handleOut = v`). -/
def setLastHandleOut (p : _tpGLPath) (ci : Nat) (c : _tpGLContour) (v : tpVec2) :
    _tpGLPath :=
  match c.segments.get? c.lastSegmentIndex.toNat with
  | none => p
  | some s =>
    let segs := c.segments.set c.lastSegmentIndex.toNat { s with handleOut := v }
    { p with contours := p.contours.set ci { c with segments := segs } }

/-- `tpPathCubicCurveTo` -/
def tpPathCubicCurveTo (p : _tpGLPath) (err : Option String)
    (h0x h0y h1x h1y px py : tpFloat) : Bool × _tpGLPath × Option String :=
  match _tpGLCurrentContour p with
  | none => (true, p, some tpBuilderErrorMessage)
  | some (ci, c) =>
    if c.lastSegmentIndex = -1 then (true, p, some tpBuilderErrorMessage)
    else
      let p1 := setLastHandleOut p ci c (tpVec2Make h0x h0y)
      let (r, p2) := _tpGLContourAddSegment p1 ci h1x h1y px py px py
      (r, p2, err)

/-- `tpPathQuadraticCurveTo`: writes the single control point `h` into the
previous segment's `handleOut` *and* into the new segment's `handleIn`. -/
def tpPathQuadraticCurveTo (p : _tpGLPath) (err : Option String)
    (hx hy px py : tpFloat) : Bool × _tpGLPath × Option String :=
  match _tpGLCurrentContour p with
  | none => (true, p, some tpBuilderErrorMessage)
  | some (ci, c) =>
    if c.lastSegmentIndex = -1 then (true, p, some tpBuilderErrorMessage)
    else
      let p1 := setLastHandleOut p ci c (tpVec2Make hx hy)
      let (r, p2) := _tpGLContourAddSegment p1 ci hx hy px py px py
      (r, p2, err)

/-- `tpPathClose`: note that it returns `tpFalse` in *both* branches; the
error branch only populates the error string. -/
def tpPathClose (p : _tpGLPath) (err : Option String) :
    Bool × _tpGLPath × Option String :=
  match _tpGLCurrentContour p with
  | some (ci, c) =>
    if 1 < c.segments.length then
      (false,
       { p with
          contours := p.contours.set ci { c with bIsClosed := true, bDirty := true }
          currentContourIndex := -1
          bPathGeometryDirty := true },
       err)
    else
      (false, p, some "tpPathClose failed because the path has no contour or the current contour is empty.")
  | none =>
    (false, p, some "tpPathClose failed because the path has no contour or the current contour is empty.")

/-- `nsvg__sqr` -/
def nsvg__sqr (x : ℚ) : ℚ := x * x

/-- `nsvg__vmag` -/
def nsvg__vmag (ops : FloatOps) (x y : ℚ) : ℚ := ops.sqrtQ (x * x + y * y)

/-- `nsvg__vecrat` -/
def nsvg__vecrat (ops : FloatOps) (ux uy vx vy : ℚ) : ℚ :=
  (ux * vx + uy * vy) / (nsvg__vmag ops ux uy * nsvg__vmag ops vx vy)

/-- `nsvg__vecang` -/
def nsvg__vecang (ops : FloatOps) (ux uy vx vy : ℚ) : ℚ :=
  let r := nsvg__vecrat ops ux uy vx vy
  let r2 := if r < -1 then -1 else if 1 < r then 1 else r
  (if ux * vy < uy * vx then -1 else 1) * ops.acosQ r2

/-- `nsvg__xformPoint` -/
def nsvg__xformPoint (x y t0 t1 t2 t3 t4 t5 : ℚ) : ℚ × ℚ :=
  (x * t0 + y * t2 + t4, x * t1 + y * t3 + t5)

/-- `nsvg__xformVec` -/
def nsvg__xformVec (x y t0 t1 t2 t3 : ℚ) : ℚ × ℚ :=
  (x * t0 + y * t2, x * t1 + y * t3)

/-- The `for (i = 0; i <= ndivs; i++)` loop of `tpPathArcTo`, walking the
index list and emitting one cubic per iteration after the first. -/
def tpPathArcToGo (ops : FloatOps) (a1 da rx ry kappa t0 t1 t2 t3 t4 t5 : ℚ)
    (ndivs : Nat) :
    List Nat → ℚ → ℚ → ℚ → ℚ → _tpGLPath → Option String →
      Bool × _tpGLPath × Option String
  | [], _, _, _, _, p, err => (false, p, err)
  | i :: rest, px, py, ptanx, ptany, p, err =>
    let a := a1 + da * ((i : ℚ) / (ndivs : ℚ))
    let dx := ops.cosQ a
    let dy := ops.sinQ a
    let pt := nsvg__xformPoint (dx * rx) (dy * ry) t0 t1 t2 t3 t4 t5
    let tn := nsvg__xformVec (-dy * rx * kappa) (dx * ry * kappa) t0 t1 t2 t3
    if 0 < i then
      let r := tpPathCubicCurveTo p err (px + ptanx) (py + ptany)
        (pt.1 - tn.1) (pt.2 - tn.2) pt.1 pt.2
      if r.1 then r
      else tpPathArcToGo ops a1 da rx ry kappa t0 t1 t2 t3 t4 t5 ndivs rest
        pt.1 pt.2 tn.1 tn.2 r.2.1 r.2.2
    else
      tpPathArcToGo ops a1 da rx ry kappa t0 t1 t2 t3 t4 t5 ndivs rest
        pt.1 pt.2 tn.1 tn.2 p err

/-- `tpPathArcTo` (SVG endpoint-parameterized elliptical arc, after
nanosvg).  Errors when no contour has been started; degenerates to a
`tpPathLineTo` for a tiny chord or radii. -/
def tpPathArcTo (ops : FloatOps) (p : _tpGLPath) (err : Option String)
    (rx0 ry0 rotx0 fl swfl x2 y2 : tpFloat) : Bool × _tpGLPath × Option String :=
  match _tpGLCurrentContour p with
  | none =>
    (true, p, some "You have to start a contour before issuing this command (see tpPathArcTo).")
  | some (_, c) =>
    if c.lastSegmentIndex = -1 then
      (true, p, some "You have to start a contour before issuing this command (see tpPathArcTo).")
    else
      match c.segments.get? c.lastSegmentIndex.toNat with
      | none => (false, p, err)  -- unreachable: lastSegmentIndex is in range
      | some lastSeg =>
        let rotx := rotx0 / 180 * (157 / 50)
        let fa : Nat := if 1 / 1000000 < |fl| then 1 else 0
        let fs : Nat := if 1 / 1000000 < |swfl| then 1 else 0
        let x1 := lastSeg.position.x
        let y1 := lastSeg.position.y
        let dx0 := x1 - x2
        let dy0 := y1 - y2
        let d0 := ops.sqrtQ (dx0 * dx0 + dy0 * dy0)
        if d0 < 1 / 1000000 ∨ rx0 < 1 / 1000000 ∨ ry0 < 1 / 1000000 then
          tpPathLineTo p err x2 y2
        else
          let sinrx := ops.sinQ rotx
          let cosrx := ops.cosQ rotx
          let x1p := cosrx * dx0 / 2 + sinrx * dy0 / 2
          let y1p := -sinrx * dx0 / 2 + cosrx * dy0 / 2
          let d1 := nsvg__sqr x1p / nsvg__sqr rx0 + nsvg__sqr y1p / nsvg__sqr ry0
          let rx := if 1 < d1 then rx0 * ops.sqrtQ d1 else rx0
          let ry := if 1 < d1 then ry0 * ops.sqrtQ d1 else ry0
          let sa := nsvg__sqr rx * nsvg__sqr ry - nsvg__sqr rx * nsvg__sqr y1p -
            nsvg__sqr ry * nsvg__sqr x1p
          let sb := nsvg__sqr rx * nsvg__sqr y1p + nsvg__sqr ry * nsvg__sqr x1p
          let sa2 := if sa < 0 then 0 else sa
          let s0 := if 0 < sb then ops.sqrtQ (sa2 / sb) else 0
          let s := if fa = fs then -s0 else s0
          let cxp := s * rx * y1p / ry
          let cyp := s * (-ry) * x1p / rx
          let cx := (x1 + x2) / 2 + cosrx * cxp - sinrx * cyp
          let cy := (y1 + y2) / 2 + sinrx * cxp + cosrx * cyp
          let ux := (x1p - cxp) / rx
          let uy := (y1p - cyp) / ry
          let vx := (-x1p - cxp) / rx
          let vy := (-y1p - cyp) / ry
          let a1 := nsvg__vecang ops 1 0 ux uy
          let da0 := nsvg__vecang ops ux uy vx vy
          let da := if fs = 0 ∧ 0 < da0 then da0 - 2 * TARP_PI
            else if fs = 1 ∧ da0 < 0 then da0 + 2 * TARP_PI else da0
          let ndivsI := ratTrunc (|da| / TARP_HALF_PI + 1)
          let ndivs := ndivsI.toNat
          let hda := (da / (ndivsI : ℚ)) / 2
          let kappa0 := |4 / 3 * (1 - ops.cosQ hda) / ops.sinQ hda|
          let kappa := if da < 0 then -kappa0 else kappa0
          tpPathArcToGo ops a1 da rx ry kappa cosrx sinrx (-sinrx) cosrx cx cy ndivs
            (List.range (ndivs + 1)) 0 0 0 0 p err

/-- C3 (amended): called with no current contour (before any
`tpPathMoveTo`), `tpPathLineTo`, `tpPathCubicCurveTo`,
`tpPathQuadraticCurveTo` and `tpPathArcTo` return `tpTrue` and populate
the thread-local error string; `tpPathClose` also populates the error
string but returns `tpFalse` (the original claim wrongly includes it
among the operations returning true: see the counterexample). -/
theorem claim_C3 (ops : FloatOps) (p : _tpGLPath) (err : Option String)
    (x y hx hy h0x h0y h1x h1y rx ry rot fl swfl : tpFloat)
    (hc : _tpGLCurrentContour p = none) :
    ((tpPathLineTo p err x y).1 = true ∧
      (tpPathLineTo p err x y).2.2 = some tpBuilderErrorMessage) ∧
    ((tpPathCubicCurveTo p err h0x h0y h1x h1y x y).1 = true ∧
      (tpPathCubicCurveTo p err h0x h0y h1x h1y x y).2.2 = some tpBuilderErrorMessage) ∧
    ((tpPathQuadraticCurveTo p err hx hy x y).1 = true ∧
      (tpPathQuadraticCurveTo p err hx hy x y).2.2 = some tpBuilderErrorMessage) ∧
    ((tpPathArcTo ops p err rx ry rot fl swfl x y).1 = true ∧
      (tpPathArcTo ops p err rx ry rot fl swfl x y).2.2 =
        some "You have to start a contour before issuing this command (see tpPathArcTo).") ∧
    ((tpPathClose p err).1 = false ∧
      (tpPathClose p err).2.2 =
        some "tpPathClose failed because the path has no contour or the current contour is empty.") := by
  refine ⟨?_, ?_, ?_, ?_, ?_⟩ <;>
    simp [tpPathLineTo, tpPathCubicCurveTo, tpPathQuadraticCurveTo, tpPathArcTo,
      tpPathClose, hc]

/-- C3 counterexample: on a freshly created path, `tpPathClose` returns
`tpFalse` (not `tpTrue` as claimed), while still populating the error
string. -/
theorem claim_C3_counterexample :
    (tpPathClose tpPathCreate none).1 = false ∧
    (tpPathClose tpPathCreate none).2.2 =
      some "tpPathClose failed because the path has no contour or the current contour is empty." := by
  constructor <;> rfl

/-- Witness for `claim_C3` on a freshly created path. -/
theorem claim_C3_witness :
    _tpGLCurrentContour tpPathCreate = none ∧
    (((tpPathLineTo tpPathCreate none 3 4).1 = true ∧
       (tpPathLineTo tpPathCreate none 3 4).2.2 = some tpBuilderErrorMessage) ∧
     ((tpPathCubicCurveTo tpPathCreate none 1 1 2 2 3 4).1 = true ∧
       (tpPathCubicCurveTo tpPathCreate none 1 1 2 2 3 4).2.2 =
         some tpBuilderErrorMessage) ∧
     ((tpPathQuadraticCurveTo tpPathCreate none 1 1 3 4).1 = true ∧
       (tpPathQuadraticCurveTo tpPathCreate none 1 1 3 4).2.2 =
         some tpBuilderErrorMessage) ∧
     ((tpPathArcTo exactFloatOps tpPathCreate none 5 5 0 0 1 3 4).1 = true ∧
       (tpPathArcTo exactFloatOps tpPathCreate none 5 5 0 0 1 3 4).2.2 =
         some "You have to start a contour before issuing this command (see tpPathArcTo).") ∧
     ((tpPathClose tpPathCreate none).1 = false ∧
       (tpPathClose tpPathCreate none).2.2 =
         some "tpPathClose failed because the path has no contour or the current contour is empty.")) :=
  ⟨rfl, claim_C3 exactFloatOps tpPathCreate none 3 4 1 1 1 1 2 2 5 5 0 0 1 rfl⟩

/-- The implied cubic between two consecutive segments, as built by
`_tpGLFlattenContour`: `(s.position, s.handleOut, t.handleIn, t.position)`. -/
def impliedCubic (s t : tpSegment) : _tpGLCurve :=
  ⟨s.position, s.handleOut, t.handleIn, t.position⟩

/-- Spec-side definition: the quadratic Bézier through `q0`, control
point `h`, endpoint `p`. -/
def quadraticBezierPoint (q0 h p : tpVec2) (t : tpFloat) : tpVec2 :=
  ⟨q0.x * (1 - t) ^ 2 + h.x * 2 * (1 - t) * t + p.x * t ^ 2,
   q0.y * (1 - t) ^ 2 + h.y * 2 * (1 - t) * t + p.y * t ^ 2⟩

/-- Spec-side definition: degree elevation of the quadratic `(q0, h, p)`
to a cubic: control points `(q0 + 2h)/3` and `(2h + p)/3`. -/
def quadToCubicElevated (q0 h p : tpVec2) : _tpGLCurve :=
  ⟨q0, ⟨(q0.x + 2 * h.x) / 3, (q0.y + 2 * h.y) / 3⟩,
   ⟨(2 * h.x + p.x) / 3, (2 * h.y + p.y) / 3⟩, p⟩

/-- Degree elevation is pointwise exact: the elevated cubic equals the
quadratic as a parametric curve (what the claim expects
`tpPathQuadraticCurveTo` to produce). -/
theorem quadToCubicElevated_point (q0 h p : tpVec2) (t : tpFloat) :
    cubicBezierPoint (quadToCubicElevated q0 h p) t = quadraticBezierPoint q0 h p t := by
  simp only [cubicBezierPoint, quadToCubicElevated, quadraticBezierPoint, tpVec2.mk.injEq]
  constructor <;> ring

/-- The path after `tpPathMoveTo(0,0)`. -/
def c5Path1 : _tpGLPath := (tpPathMoveTo tpPathCreate none 0 0).2.1

/-- The path after `tpPathMoveTo(0,0); tpPathQuadraticCurveTo((1,1),(2,0))`. -/
def c5Path2 : _tpGLPath := (tpPathQuadraticCurveTo c5Path1 none 1 1 2 0).2.1

/-- C5 evaluation at the failing input: `tpPathQuadraticCurveTo((1,1),(2,0))`
after `tpPathMoveTo(0,0)` appends the cubic with *both* control points at
the single quadratic control point `(1,1)`; at `t = 1/2` that cubic is at
`(1, 3/4)` whereas the quadratic Bézier through `(0,0),(1,1),(2,0)` is at
`(1, 1/2)` — the produced segment is not pointwise equal to the
quadratic, contradicting the claim (the correct degree elevation would
be, see `quadToCubicElevated_point`). -/
theorem claim_C5 :
    (c5Path2.contours.map (fun c => c.segments)) =
      [[⟨⟨0, 0⟩, ⟨0, 0⟩, ⟨1, 1⟩⟩, ⟨⟨1, 1⟩, ⟨2, 0⟩, ⟨2, 0⟩⟩]] ∧
    cubicBezierPoint
        (impliedCubic ⟨⟨0, 0⟩, ⟨0, 0⟩, ⟨1, 1⟩⟩ ⟨⟨1, 1⟩, ⟨2, 0⟩, ⟨2, 0⟩⟩) (1/2) =
      ⟨1, 3/4⟩ ∧
    quadraticBezierPoint ⟨0, 0⟩ ⟨1, 1⟩ ⟨2, 0⟩ (1/2) = ⟨1, 1/2⟩ ∧
    cubicBezierPoint
        (impliedCubic ⟨⟨0, 0⟩, ⟨0, 0⟩, ⟨1, 1⟩⟩ ⟨⟨1, 1⟩, ⟨2, 0⟩, ⟨2, 0⟩⟩) (1/2) ≠
      quadraticBezierPoint ⟨0, 0⟩ ⟨1, 1⟩ ⟨2, 0⟩ (1/2) := by
  refine ⟨?_, ?_, ?_, ?_⟩
  · norm_num [c5Path2, c5Path1, tpPathMoveTo, tpPathQuadraticCurveTo, tpPathCreate,
      _tpGLPathNextEmptyContour, _tpGLPathCreateNextContour, _tpGLCurrentContour,
      _tpGLContourAddSegment, _tpGLContourAddSegments, tpSegmentMake, tpVec2Make,
      setLastHandleOut]
  · norm_num [cubicBezierPoint, impliedCubic]
  · norm_num [quadraticBezierPoint]
  · intro h
    have h2 := congrArg tpVec2.y h
    simp only [cubicBezierPoint, impliedCubic, quadraticBezierPoint] at h2
    norm_num at h2

/-! ## Clipping stack state machine (`tpBeginClipping`/`tpEndClipping`) -/

/-- `_kTpGLClippingStencilPlaneOne = 1 << 5` -/
def _kTpGLClippingStencilPlaneOne : Nat := 32

/-- `_kTpGLClippingStencilPlaneTwo = 1 << 6` -/
def _kTpGLClippingStencilPlaneTwo : Nat := 64

/-- The clipping-related state of `_tpGLContext`.  The C keeps a fixed
64-slot `clippingStack` array plus `clippingStackDepth`; only the entries
below the depth are ever read, so the model stores exactly the live
entries (render caches abstracted to ids) and the depth is the length. -/
structure _tpGLClipContext where
  clippingStack : List Nat
  currentClipStencilPlane : Nat
  bCanSwapStencilPlanes : Bool
deriving DecidableEq, Repr

/-- The clipping state set up by `tpContextCreate` / `tpBeginFrame`. -/
def clipContextInit : _tpGLClipContext :=
  ⟨[], _kTpGLClippingStencilPlaneOne, true⟩

/-- `_tpGLGenerateClippingMaskForRenderCache` on the successful draw path:
push the cache (unless rebuilding), clear and draw the mask into the
current clip plane (GPU state, abstracted), then flip the current plane.
`bCanSwapStencilPlanes` is *not* written by this function. -/
def _tpGLGenerateClippingMaskForRenderCache (ctx : _tpGLClipContext) (cache : Nat)
    (bIsRebuilding : Bool) : _tpGLClipContext :=
  let ctx1 := if bIsRebuilding then ctx
    else { ctx with clippingStack := ctx.clippingStack ++ [cache] }
  { ctx1 with
      currentClipStencilPlane :=
        if ctx1.currentClipStencilPlane = _kTpGLClippingStencilPlaneOne then
          _kTpGLClippingStencilPlaneTwo
        else _kTpGLClippingStencilPlaneOne }

/-- `tpBeginClippingFromRenderCache` (and `tpBeginClipping` /
`tpBeginClippingWithFillRule`, whose extra path-caching step does not
touch the clipping state) on the successful path. -/
def tpBeginClippingFromRenderCache (ctx : _tpGLClipContext) (cache : Nat) :
    _tpGLClipContext :=
  _tpGLGenerateClippingMaskForRenderCache ctx cache false

/-- `tpEndClipping`.  The C asserts a nonzero depth; the model leaves an
empty-stack context unchanged (that branch is undefined in the source). -/
def tpEndClipping (ctx : _tpGLClipContext) : _tpGLClipContext :=
  if ctx.clippingStack = [] then ctx
  else
    let stack2 := ctx.clippingStack.dropLast
    if stack2.length ≠ 0 then
      if ctx.bCanSwapStencilPlanes then
        { ctx with
            clippingStack := stack2
            currentClipStencilPlane :=
              if ctx.currentClipStencilPlane = _kTpGLClippingStencilPlaneOne then
                _kTpGLClippingStencilPlaneTwo
              else _kTpGLClippingStencilPlaneOne
            bCanSwapStencilPlanes := false }
      else
        -- rebuild: reset to plane one, re-enable swapping, clear both
        -- planes (GPU) and replay every stacked clip mask
        stack2.foldl (fun c cacheId =>
            _tpGLGenerateClippingMaskForRenderCache c cacheId true)
          { ctx with
              clippingStack := stack2
              currentClipStencilPlane := _kTpGLClippingStencilPlaneOne
              bCanSwapStencilPlanes := true }
    else
      { ctx with
          clippingStack := []
          currentClipStencilPlane := _kTpGLClippingStencilPlaneOne
          bCanSwapStencilPlanes := true }

/-- `tpResetClipping` -/
def tpResetClipping (ctx : _tpGLClipContext) : _tpGLClipContext :=
  { ctx with
      clippingStack := []
      currentClipStencilPlane := _kTpGLClippingStencilPlaneOne
      bCanSwapStencilPlanes := true }

/-- C1 (amended): every successful `beginClipping` flips the current clip
plane to the other plane, but leaves `bCanSwapStencilPlanes` *unchanged*
(the source never sets it to true there; the original claim's
"`canSwap` ← `true`" fails, see the counterexample). -/
theorem claim_C1 (ctx : _tpGLClipContext) (cache : Nat) :
    (tpBeginClippingFromRenderCache ctx cache).currentClipStencilPlane =
      (if ctx.currentClipStencilPlane = _kTpGLClippingStencilPlaneOne then
        _kTpGLClippingStencilPlaneTwo
      else _kTpGLClippingStencilPlaneOne) ∧
    (tpBeginClippingFromRenderCache ctx cache).bCanSwapStencilPlanes =
      ctx.bCanSwapStencilPlanes := by
  constructor <;>
    simp [tpBeginClippingFromRenderCache, _tpGLGenerateClippingMaskForRenderCache]

/-- C1 counterexample: in a fresh context, after `begin A; begin B;
endClipping` the swap branch of `tpEndClipping` has set
`bCanSwapStencilPlanes` to false; the next successful `beginClipping`
(`begin C`) leaves it false — the claim that every mask-emitting
`beginClipping` sets `canSwap` to true is falsified on this reachable
state. -/
theorem claim_C1_counterexample :
    (tpBeginClippingFromRenderCache
        (tpEndClipping
          (tpBeginClippingFromRenderCache
            (tpBeginClippingFromRenderCache clipContextInit 1) 2)) 3).bCanSwapStencilPlanes =
      false := by
  decide

/-! ## Dash start state (top of `_tpGLStroke`) -/

/-- `_tpGLDashStartState` (`startDashIndex` is a C `int`, clamped to `≥ 0`
by the `TARP_MAX(0, ...)` calls, so modelled as `Nat`). -/
structure _tpGLDashStartState where
  startDashIndex : Nat
  bStartDashOn : Bool
  startDashLen : tpFloat
deriving DecidableEq, Repr

/-- C `fmod`: remainder with the sign of the dividend,
`x - y·trunc(x/y)`. -/
def ratFmod (x y : ℚ) : ℚ := x - y * (ratTrunc (x / y) : ℚ)

/-- The forward scan `while (startDashLen <= 0.0) { startDashLen +=
dashArray[idx]; idx++; }` of the positive-offset branch.  The fuel bound
`dashCount + 1` is never reached when all dash entries are positive (the
C loop would read past the array otherwise). -/
def dashFwdLoop (dashArray : List ℚ) : Nat → Nat → ℚ → Nat × ℚ
  | 0, idx, len => (idx, len)
  | fuel + 1, idx, len =>
    if len ≤ 0 then dashFwdLoop dashArray fuel (idx + 1) (len + dashArray.getD idx 0)
    else (idx, len)

/-- The backward scan `while (startDashLen > 0.0f) { idx--; startDashLen
-= dashArray[idx]; }` of the negative-offset branch, recursing on the
index (the C loop would drive the index below zero otherwise; unreachable
for positive entries). -/
def dashBwdLoop (dashArray : List ℚ) : Nat → ℚ → Nat × ℚ
  | 0, len => (0, len)
  | idx + 1, len =>
    if 0 < len then dashBwdLoop dashArray idx (len - dashArray.getD idx 0)
    else (idx + 1, len)

/-- The dash start computation at the top of `_tpGLStroke` (run when
`dashCount > 0`); `dashCount` is the dash array's length.  Out-of-bounds
`dashArray` reads of the C (see the C6 failing input) are modelled by
`getD _ 0`. -/
def _tpGLStrokeDashStartState (dashArray : List ℚ) (dashOffset : ℚ) :
    _tpGLDashStartState :=
  if dashOffset = 0 then ⟨0, true, dashArray.getD 0 0⟩
  else
    let patternLen := dashArray.foldl (· + ·) 0
    let offsetIntoPattern :=
      if patternLen ≤ |dashOffset| then ratFmod dashOffset patternLen else dashOffset
    let startLen0 := -offsetIntoPattern
    if 0 < dashOffset then
      let r := dashFwdLoop dashArray (dashArray.length + 1) 0 startLen0
      let idx := r.1 - 1
      ⟨idx, decide (idx % 2 = 0), r.2⟩
    else
      let r := dashBwdLoop dashArray dashArray.length startLen0
      ⟨r.1, decide (r.1 % 2 = 0), dashArray.getD r.1 0 + r.2⟩

/-- Sanity check of the embedding on an ordinary positive offset:
`dashArray = [10,5]`, `dashOffset = 12` lands in entry 1 (off), 3 units
remaining. -/
theorem dashStartState_forward_example :
    _tpGLStrokeDashStartState [10, 5] 12 = ⟨1, false, 3⟩ := by
  norm_num [_tpGLStrokeDashStartState, dashFwdLoop, ratFmod, ratTrunc]

/-- Sanity check on a negative offset: `dashOffset = -2` is position 13
of the 15-long pattern: entry 1 (off), 2 units remaining. -/
theorem dashStartState_backward_example :
    _tpGLStrokeDashStartState [10, 5] (-2) = ⟨1, false, 2⟩ := by
  norm_num [_tpGLStrokeDashStartState, dashBwdLoop, ratFmod, ratTrunc]

/-- C6 evaluation at the failing input: with `dashArray = [10, 5]`
(`dashCount = 2`) and `dashOffset = -15` (a negative exact multiple of
the pattern length), the code computes `startDashIndex = 2 = dashCount`,
*outside* the claimed range `[0, dashCount)`, and reads `dashArray[2]`
out of bounds for the start length (the claimed state for pattern
position 0 would be index 0, on, remaining length 10). -/
theorem claim_C6 :
    (_tpGLStrokeDashStartState [10, 5] (-15)).startDashIndex = 2 ∧
    ¬((_tpGLStrokeDashStartState [10, 5] (-15)).startDashIndex < 2) ∧
    _tpGLStrokeDashStartState [10, 5] (-15) ≠ ⟨0, true, 10⟩ := by
  refine ⟨?_, ?_, ?_⟩ <;>
    norm_num [_tpGLStrokeDashStartState, dashBwdLoop, ratFmod, ratTrunc]

/-! ## Gradient color stop finalization (`_tpGLFinalizeColorStops`) -/

/-- `tpColor`: RGBA floats. -/
structure tpColor where
  r : tpFloat
  g : tpFloat
  b : tpFloat
  a : tpFloat
deriving DecidableEq, Repr

/-- `tpColorStop` -/
structure tpColorStop where
  color : tpColor
  offset : tpFloat
deriving DecidableEq, Repr

/-- The ordering used by `_tpGLColorStopComp` (`qsort` comparator
returning `-1` iff `a.offset < b.offset`); on the duplicate-free arrays
it is applied to, any comparison sort yields the unique ascending order,
modelled with insertion sort over this relation. -/
def stopLe (a b : tpColorStop) : Prop := a.offset ≤ b.offset

instance : DecidableRel stopLe := fun a b => inferInstanceAs (Decidable (a.offset ≤ b.offset))

instance : IsTotal tpColorStop stopLe := ⟨fun a b => le_total a.offset b.offset⟩

instance : IsTrans tpColorStop stopLe := ⟨fun _ _ _ => le_trans⟩

/-- The "remove duplicates" pass of `_tpGLFinalizeColorStops`: walk the
stops tracking whether an offset-0 / offset-1 stop was *seen* (in the
original list), and append a stop to the temporary array when its offset
is not already there and lies in `[0, 1]`. -/
def finalizeScan : List tpColorStop → Bool → Bool → List tpColorStop →
    Bool × Bool × List tpColorStop
  | [], hs, he, tmp => (hs, he, tmp)
  | current :: rest, hs, he, tmp =>
    finalizeScan rest (hs || decide (current.offset = 0))
      -- `else if (current->offset == 1)`: the else only excludes
      -- `offset == 0`, which can never equal 1, so it is equivalent
      (he || decide (current.offset = 1))
      (if ¬tmp.any (fun s => decide (s.offset = current.offset)) ∧
          0 ≤ current.offset ∧ current.offset ≤ 1 then tmp ++ [current] else tmp)

/-- A placeholder for the C's out-of-bounds array reads when the filtered
stop array is empty (undefined behaviour in the source; unreachable under
the in-range hypotheses of the amended claim). -/
def defaultColorStop : tpColorStop := ⟨⟨0, 0, 0, 0⟩, 0⟩

/-- `_tpGLFinalizeColorStops`, acting on the gradient's stop list and
returning the finalized list: empty lists are returned untouched; else
duplicates and out-of-range stops are dropped, the rest sorted ascending
by offset, and stops at offsets 0 / 1 are synthesized (copying the
first / last remaining color) when the original list had none. -/
def _tpGLFinalizeColorStops (stops : List tpColorStop) : List tpColorStop :=
  if stops = [] then stops
  else
    let scan := finalizeScan stops false false []
    let hasStart := scan.1
    let hasEnd := scan.2.1
    let sorted := List.insertionSort stopLe scan.2.2
    if ¬hasStart ∨ ¬hasEnd then
      (if ¬hasStart then [⟨(sorted.head?.getD defaultColorStop).color, 0⟩] else []) ++
      sorted ++
      (if ¬hasEnd then [⟨(sorted.getLast?.getD defaultColorStop).color, 1⟩] else [])
    else sorted

/-- Sanity check: duplicates dropped (first kept), sorted, endpoints
synthesized. -/
theorem finalizeColorStops_example :
    _tpGLFinalizeColorStops
        [⟨⟨1, 0, 0, 1⟩, 1/2⟩, ⟨⟨0, 1, 0, 1⟩, 1/4⟩, ⟨⟨0, 0, 1, 1⟩, 1/2⟩] =
      [⟨⟨0, 1, 0, 1⟩, 0⟩, ⟨⟨0, 1, 0, 1⟩, 1/4⟩, ⟨⟨1, 0, 0, 1⟩, 1/2⟩,
       ⟨⟨1, 0, 0, 1⟩, 1⟩] := by
  norm_num [_tpGLFinalizeColorStops, finalizeScan, List.insertionSort, List.orderedInsert,
    stopLe]
  exact List.cons_ne_nil _ _

theorem finalizeScan_tmp_prefix :
    ∀ (rest : List tpColorStop) (hs he : Bool) (tmp : List tpColorStop),
      ∃ suffix, (finalizeScan rest hs he tmp).2.2 = tmp ++ suffix := by
  intro rest
  induction rest with
  | nil => exact fun hs he tmp => ⟨[], by simp [finalizeScan]⟩
  | cons current rest ih =>
    intro hs he tmp
    simp only [finalizeScan]
    split
    · obtain ⟨s, hsuf⟩ := ih (hs || decide (current.offset = 0))
        (he || decide (current.offset = 1)) (tmp ++ [current])
      exact ⟨[current] ++ s, by rw [hsuf, List.append_assoc]⟩
    · exact ih _ _ tmp

theorem finalizeScan_hasStart :
    ∀ (rest : List tpColorStop) (hs he : Bool) (tmp : List tpColorStop),
      (finalizeScan rest hs he tmp).1 =
        (hs || rest.any fun s => decide (s.offset = 0)) := by
  intro rest
  induction rest with
  | nil => intro hs he tmp; simp [finalizeScan]
  | cons current rest ih =>
    intro hs he tmp
    simp only [finalizeScan, List.any_cons]
    split <;> rw [ih] <;> rw [Bool.or_assoc]

theorem finalizeScan_hasEnd :
    ∀ (rest : List tpColorStop) (hs he : Bool) (tmp : List tpColorStop),
      (finalizeScan rest hs he tmp).2.1 =
        (he || rest.any fun s => decide (s.offset = 1)) := by
  intro rest
  induction rest with
  | nil => intro hs he tmp; simp [finalizeScan]
  | cons current rest ih =>
    intro hs he tmp
    simp only [finalizeScan, List.any_cons]
    split <;> rw [ih] <;> rw [Bool.or_assoc]

theorem finalizeScan_mem :
    ∀ (rest : List tpColorStop) (hs he : Bool) (tmp : List tpColorStop),
      ∀ t ∈ (finalizeScan rest hs he tmp).2.2, t ∈ tmp ∨ t ∈ rest := by
  intro rest
  induction rest with
  | nil => intro hs he tmp t ht; simp only [finalizeScan] at ht; exact Or.inl ht
  | cons current rest ih =>
    intro hs he tmp t ht
    simp only [finalizeScan] at ht
    by_cases hcond : ¬(tmp.any fun s => decide (s.offset = current.offset)) = true ∧
        0 ≤ current.offset ∧ current.offset ≤ 1
    · rw [if_pos hcond] at ht
      rcases ih _ _ _ t ht with hmem | hmem
      · rcases List.mem_append.mp hmem with h | h
        · exact Or.inl h
        · simp only [List.mem_singleton] at h
          exact Or.inr (by simp [h])
      · exact Or.inr (List.mem_cons_of_mem _ hmem)
    · rw [if_neg hcond] at ht
      rcases ih _ _ _ t ht with hmem | hmem
      · exact Or.inl hmem
      · exact Or.inr (List.mem_cons_of_mem _ hmem)

theorem finalizeScan_pairwise :
    ∀ (rest : List tpColorStop) (hs he : Bool) (tmp : List tpColorStop),
      List.Pairwise (fun a b => a.offset ≠ b.offset) tmp →
      List.Pairwise (fun a b => a.offset ≠ b.offset)
        (finalizeScan rest hs he tmp).2.2 := by
  intro rest
  induction rest with
  | nil => intro hs he tmp h; simpa [finalizeScan] using h
  | cons current rest ih =>
    intro hs he tmp h
    simp only [finalizeScan]
    split
    case isTrue hcond =>
      refine ih _ _ _ ?_
      rw [List.pairwise_append]
      refine ⟨h, List.pairwise_singleton _ _, ?_⟩
      intro a ha b hb
      simp only [List.mem_singleton] at hb
      subst hb
      intro heq
      have hany : tmp.any (fun s => decide (s.offset = b.offset)) = true :=
        List.any_eq_true.mpr ⟨a, ha, by simp [heq]⟩
      exact absurd hany (by simpa using hcond.1)
    case isFalse => exact ih _ _ _ h

theorem finalizeScan_coverage :
    ∀ (rest : List tpColorStop) (hs he : Bool) (tmp : List tpColorStop),
      ∀ s ∈ rest, 0 ≤ s.offset → s.offset ≤ 1 →
        ∃ t ∈ (finalizeScan rest hs he tmp).2.2, t.offset = s.offset := by
  intro rest
  induction rest with
  | nil => intro hs he tmp s hmem; exact absurd hmem (List.not_mem_nil s)
  | cons current rest ih =>
    intro hs he tmp s hmem h0 h1
    rcases List.mem_cons.mp hmem with heq | hmem'
    · subst heq
      simp only [finalizeScan]
      by_cases hany : (tmp.any fun t => decide (t.offset = s.offset)) = true
      · rw [if_neg (by simp [hany])]
        obtain ⟨t, htmem, hteq⟩ := List.any_eq_true.mp hany
        obtain ⟨suffix, hsuf⟩ := finalizeScan_tmp_prefix rest _ _ tmp
        exact ⟨t, by rw [hsuf]; exact List.mem_append_left _ htmem, by simpa using hteq⟩
      · rw [if_pos (by simp [hany, h0, h1])]
        obtain ⟨suffix, hsuf⟩ := finalizeScan_tmp_prefix rest _ _ (tmp ++ [s])
        refine ⟨s, ?_, rfl⟩
        rw [hsuf]
        exact List.mem_append_left _ (List.mem_append_right _ (List.mem_singleton.mpr rfl))
    · simp only [finalizeScan]
      split <;> exact ih _ _ _ s hmem' h0 h1

theorem sorted_head_le (l : List tpColorStop) (hl : l.Sorted stopLe) :
    ∀ x ∈ l, ∀ h, l.head? = some h → h.offset ≤ x.offset := by
  cases l with
  | nil => intro x hx; exact absurd hx (List.not_mem_nil x)
  | cons a t =>
    intro x hx h hh
    rw [List.head?_cons, Option.some.injEq] at hh
    subst hh
    rcases List.mem_cons.mp hx with heq | hmem
    · rw [heq]
    · exact (List.pairwise_cons.mp hl).1 x hmem

theorem sorted_le_getLast (l : List tpColorStop) (hl : l.Sorted stopLe) :
    ∀ x ∈ l, ∀ g, l.getLast? = some g → x.offset ≤ g.offset := by
  induction l with
  | nil => intro x hx; exact absurd hx (List.not_mem_nil x)
  | cons a t ih =>
    intro x hx g hg
    cases t with
    | nil =>
      simp only [List.getLast?_singleton, Option.some.injEq] at hg
      subst hg
      rcases List.mem_singleton.mp hx with heq
      rw [heq]
    | cons b t2 =>
      rw [List.getLast?_cons_cons] at hg
      have hsorted2 : (b :: t2).Sorted stopLe := (List.pairwise_cons.mp hl).2
      rcases List.mem_cons.mp hx with heq | hmem
      · subst heq
        have hbg : b.offset ≤ g.offset :=
          ih hsorted2 b (List.mem_cons_self b t2) g hg
        have hxb : stopLe x b := (List.pairwise_cons.mp hl).1 b (List.mem_cons_self b t2)
        exact le_trans hxb hbg
      · exact ih hsorted2 x hmem g hg

/-- C7 (amended): for every gradient stop list that is non-empty and
whose offsets all lie in `[0, 1]` (the source silently drops out-of-range
stops, which falsifies the original claim's color rule: see the
counterexample), finalization yields a list strictly ascending in offset
(hence duplicate-free), beginning at offset 0 and ending at offset 1;
when no offset-0 (resp. offset-1) stop was present, the synthesized
endpoint copies the color of a lowest-offset (resp. highest-offset)
input stop. -/
theorem claim_C7 (stops : List tpColorStop) (hne : stops ≠ [])
    (hin : ∀ s ∈ stops, 0 ≤ s.offset ∧ s.offset ≤ 1) :
    List.Pairwise (fun a b => a.offset < b.offset) (_tpGLFinalizeColorStops stops) ∧
    (_tpGLFinalizeColorStops stops).head?.map (fun s => s.offset) = some 0 ∧
    (_tpGLFinalizeColorStops stops).getLast?.map (fun s => s.offset) = some 1 ∧
    ((∀ s ∈ stops, s.offset ≠ 0) →
      ∃ s ∈ stops, (∀ t ∈ stops, s.offset ≤ t.offset) ∧
        (_tpGLFinalizeColorStops stops).head?.map (fun x => x.color) = some s.color) ∧
    ((∀ s ∈ stops, s.offset ≠ 1) →
      ∃ s ∈ stops, (∀ t ∈ stops, t.offset ≤ s.offset) ∧
        (_tpGLFinalizeColorStops stops).getLast?.map (fun x => x.color) = some s.color) := by
  have hperm := List.perm_insertionSort stopLe (finalizeScan stops false false []).2.2
  have hsorted := List.sorted_insertionSort stopLe (finalizeScan stops false false []).2.2
  have hpw_ne : List.Pairwise (fun a b => a.offset ≠ b.offset)
      (List.insertionSort stopLe (finalizeScan stops false false []).2.2) :=
    (hperm.pairwise_iff (fun hab => Ne.symm hab)).mpr
      (finalizeScan_pairwise stops false false [] List.Pairwise.nil)
  have hpw_lt : List.Pairwise (fun a b => a.offset < b.offset)
      (List.insertionSort stopLe (finalizeScan stops false false []).2.2) :=
    (hsorted.and hpw_ne).imp (fun hab => lt_of_le_of_ne hab.1 hab.2)
  have hmem_sorted : ∀ t ∈ List.insertionSort stopLe (finalizeScan stops false false []).2.2,
      t ∈ stops := by
    intro t ht
    rcases finalizeScan_mem stops false false [] t (hperm.subset ht) with h | h
    · exact absurd h (List.not_mem_nil t)
    · exact h
  have hcover : ∀ s ∈ stops,
      ∃ t ∈ List.insertionSort stopLe (finalizeScan stops false false []).2.2,
        t.offset = s.offset := by
    intro s hs
    obtain ⟨t, htmem, hteq⟩ :=
      finalizeScan_coverage stops false false [] s hs (hin s hs).1 (hin s hs).2
    exact ⟨t, (hperm.mem_iff).mpr htmem, hteq⟩
  have hsorted_ne : List.insertionSort stopLe (finalizeScan stops false false []).2.2 ≠ [] := by
    obtain ⟨s, hs⟩ := List.exists_mem_of_ne_nil stops hne
    obtain ⟨t, htmem, -⟩ := hcover s hs
    exact List.ne_nil_of_mem htmem
  obtain ⟨hd, tl, hcons⟩ := List.exists_cons_of_ne_nil hsorted_ne
  obtain ⟨gl, hgl⟩ : ∃ g, (List.insertionSort stopLe
      (finalizeScan stops false false []).2.2).getLast? = some g := by
    cases hg : (List.insertionSort stopLe (finalizeScan stops false false []).2.2).getLast? with
    | none => exact absurd (List.getLast?_eq_none_iff.mp hg) hsorted_ne
    | some g => exact ⟨g, rfl⟩
  have hgl_mem : gl ∈ List.insertionSort stopLe (finalizeScan stops false false []).2.2 :=
    List.mem_of_mem_getLast? hgl
  have hhd_mem : hd ∈ List.insertionSort stopLe (finalizeScan stops false false []).2.2 := by
    rw [hcons]; exact List.mem_cons_self hd tl
  have hhd_min : ∀ s ∈ stops, hd.offset ≤ s.offset := by
    intro s hs
    obtain ⟨t, htmem, hteq⟩ := hcover s hs
    rw [← hteq]
    exact sorted_head_le _ hsorted t htmem hd (by rw [hcons]; rfl)
  have hgl_max : ∀ s ∈ stops, s.offset ≤ gl.offset := by
    intro s hs
    obtain ⟨t, htmem, hteq⟩ := hcover s hs
    rw [← hteq]
    exact sorted_le_getLast _ hsorted t htmem gl hgl
  simp only [_tpGLFinalizeColorStops, if_neg hne]
  by_cases hstart : (finalizeScan stops false false []).1 = true
  · have hzero : ∃ s ∈ stops, s.offset = 0 := by
      have hany := finalizeScan_hasStart stops false false []
      rw [hstart, Bool.false_or] at hany
      obtain ⟨s, hs, hdec⟩ := List.any_eq_true.mp hany.symm
      exact ⟨s, hs, by simpa using hdec⟩
    have hhd_zero : hd.offset = 0 := by
      obtain ⟨s, hs, hs0⟩ := hzero
      have h1 := hhd_min s hs
      rw [hs0] at h1
      exact le_antisymm h1 (hin hd (hmem_sorted hd hhd_mem)).1
    by_cases hend : (finalizeScan stops false false []).2.1 = true
    · -- both endpoint stops present: result is the sorted dedup
      rw [if_neg (by simp [hstart, hend])]
      have hone : ∃ s ∈ stops, s.offset = 1 := by
        have hany := finalizeScan_hasEnd stops false false []
        rw [hend, Bool.false_or] at hany
        obtain ⟨s, hs, hdec⟩ := List.any_eq_true.mp hany.symm
        exact ⟨s, hs, by simpa using hdec⟩
      have hgl_one : gl.offset = 1 := by
        obtain ⟨s, hs, hs1⟩ := hone
        have h1 := hgl_max s hs
        rw [hs1] at h1
        exact le_antisymm (hin gl (hmem_sorted gl hgl_mem)).2 h1
      refine ⟨hpw_lt, ?_, ?_, ?_, ?_⟩
      · rw [hcons]; simp [hhd_zero]
      · rw [hgl]; simp [hgl_one]
      · intro habs
        obtain ⟨s, hs, hs0⟩ := hzero
        exact absurd hs0 (habs s hs)
      · intro habs
        obtain ⟨s, hs, hs1⟩ := hone
        exact absurd hs1 (habs s hs)
    · -- offset-1 stop missing: it is synthesized from the last color
      rw [if_pos (by simp [hend])]
      rw [if_neg (by simp [hstart]), if_pos (by simp [hend])]
      have hnot1 : ∀ s ∈ stops, s.offset ≠ 1 := by
        have hany := finalizeScan_hasEnd stops false false []
        have hfalse : (finalizeScan stops false false []).2.1 = false :=
          Bool.eq_false_iff.mpr hend
        rw [hfalse, Bool.false_or] at hany
        intro s hs
        have := List.any_eq_false.mp hany.symm s hs
        simpa using this
      have hlt1 : ∀ x ∈ List.insertionSort stopLe (finalizeScan stops false false []).2.2,
          x.offset < 1 :=
        fun x hx => lt_of_le_of_ne (hin x (hmem_sorted x hx)).2 (hnot1 x (hmem_sorted x hx))
      have hresult : ([] : List tpColorStop) ++
          List.insertionSort stopLe (finalizeScan stops false false []).2.2 ++
          [⟨((List.insertionSort stopLe
              (finalizeScan stops false false []).2.2).getLast?.getD
                defaultColorStop).color, 1⟩] =
          List.insertionSort stopLe (finalizeScan stops false false []).2.2 ++
          [⟨gl.color, 1⟩] := by
        rw [List.nil_append, hgl]
        rfl
      rw [hresult]
      refine ⟨?_, ?_, ?_, ?_, ?_⟩
      · rw [List.pairwise_append]
        exact ⟨hpw_lt, List.pairwise_singleton _ _,
          fun a ha b hb => by
            rw [List.mem_singleton] at hb
            rw [hb]
            exact hlt1 a ha⟩
      · rw [hcons]
        simp [hhd_zero]
      · rw [List.getLast?_concat]
        rfl
      · intro habs
        obtain ⟨s, hs, hs0⟩ := hzero
        exact absurd hs0 (habs s hs)
      · intro _
        refine ⟨gl, hmem_sorted gl hgl_mem, hgl_max, ?_⟩
        rw [List.getLast?_concat]
        rfl
  · -- offset-0 stop missing: it is synthesized from the first color
    have hnot0 : ∀ s ∈ stops, s.offset ≠ 0 := by
      have hany := finalizeScan_hasStart stops false false []
      have hfalse : (finalizeScan stops false false []).1 = false :=
        Bool.eq_false_iff.mpr hstart
      rw [hfalse, Bool.false_or] at hany
      intro s hs
      have := List.any_eq_false.mp hany.symm s hs
      simpa using this
    have hgt0 : ∀ x ∈ List.insertionSort stopLe (finalizeScan stops false false []).2.2,
        0 < x.offset :=
      fun x hx => lt_of_le_of_ne (hin x (hmem_sorted x hx)).1
        (Ne.symm (hnot0 x (hmem_sorted x hx)))
    rw [if_pos (by simp [hstart])]
    rw [if_pos (by simp [hstart])]
    have hhead_getD : ((List.insertionSort stopLe
        (finalizeScan stops false false []).2.2).head?.getD defaultColorStop) = hd := by
      rw [hcons]
      rfl
    by_cases hend : (finalizeScan stops false false []).2.1 = true
    · rw [if_neg (by simp [hend])]
      have hone : ∃ s ∈ stops, s.offset = 1 := by
        have hany := finalizeScan_hasEnd stops false false []
        rw [hend, Bool.false_or] at hany
        obtain ⟨s, hs, hdec⟩ := List.any_eq_true.mp hany.symm
        exact ⟨s, hs, by simpa using hdec⟩
      have hgl_one : gl.offset = 1 := by
        obtain ⟨s, hs, hs1⟩ := hone
        have h1 := hgl_max s hs
        rw [hs1] at h1
        exact le_antisymm (hin gl (hmem_sorted gl hgl_mem)).2 h1
      rw [hhead_getD, List.append_nil]
      refine ⟨?_, ?_, ?_, ?_, ?_⟩
      · exact List.Pairwise.cons (fun x hx => hgt0 x hx) hpw_lt
      · rfl
      · rw [List.getLast?_append, hgl]
        simp [hgl_one]
      · intro _
        exact ⟨hd, hmem_sorted hd hhd_mem, hhd_min, rfl⟩
      · intro habs
        obtain ⟨s, hs, hs1⟩ := hone
        exact absurd hs1 (habs s hs)
    · rw [if_pos (by simp [hend])]
      have hnot1 : ∀ s ∈ stops, s.offset ≠ 1 := by
        have hany := finalizeScan_hasEnd stops false false []
        have hfalse : (finalizeScan stops false false []).2.1 = false :=
          Bool.eq_false_iff.mpr hend
        rw [hfalse, Bool.false_or] at hany
        intro s hs
        have := List.any_eq_false.mp hany.symm s hs
        simpa using this
      have hlt1 : ∀ x ∈ List.insertionSort stopLe (finalizeScan stops false false []).2.2,
          x.offset < 1 :=
        fun x hx => lt_of_le_of_ne (hin x (hmem_sorted x hx)).2 (hnot1 x (hmem_sorted x hx))
      simp only [hhead_getD, hgl, Option.getD_some, List.singleton_append,
        List.cons_append]
      refine ⟨?_, ?_, ?_, ?_, ?_⟩
      · refine List.Pairwise.cons ?_ ?_
        · intro x hx
          rcases List.mem_append.mp hx with h | h
          · exact hgt0 x h
          · rw [List.mem_singleton] at h
            rw [h]
            norm_num
        · rw [List.pairwise_append]
          exact ⟨hpw_lt, List.pairwise_singleton _ _,
            fun a ha b hb => by
              rw [List.mem_singleton] at hb
              rw [hb]
              exact hlt1 a ha⟩
      · rfl
      · show ((⟨hd.color, 0⟩ :: (List.insertionSort stopLe
            (finalizeScan stops false false []).2.2 ++ [⟨gl.color, 1⟩])).getLast?).map
            (fun s => s.offset) = some 1
        rw [show (⟨hd.color, 0⟩ :: (List.insertionSort stopLe
            (finalizeScan stops false false []).2.2 ++ [⟨gl.color, 1⟩])) =
            (⟨hd.color, 0⟩ :: List.insertionSort stopLe
              (finalizeScan stops false false []).2.2) ++ [⟨gl.color, 1⟩] by simp]
        rw [List.getLast?_concat]
        rfl
      · intro _
        exact ⟨hd, hmem_sorted hd hhd_mem, hhd_min, rfl⟩
      · intro _
        refine ⟨gl, hmem_sorted gl hgl_mem, hgl_max, ?_⟩
        show ((⟨hd.color, 0⟩ :: (List.insertionSort stopLe
            (finalizeScan stops false false []).2.2 ++ [⟨gl.color, 1⟩])).getLast?).map
            (fun x => x.color) = some gl.color
        rw [show (⟨hd.color, 0⟩ :: (List.insertionSort stopLe
            (finalizeScan stops false false []).2.2 ++ [⟨gl.color, 1⟩])) =
            (⟨hd.color, 0⟩ :: List.insertionSort stopLe
              (finalizeScan stops false false []).2.2) ++ [⟨gl.color, 1⟩] by simp]
        rw [List.getLast?_concat]
        rfl

/-- C7 counterexample: with stops `[(-1/2, red), (1/2, blue)]` the
finalized list starts with a synthesized stop at offset 0 whose color is
*blue* — the color of the first remaining stop after the out-of-range
stop `-1/2` was silently dropped — not the color of the input's
lowest-offset stop (red), falsifying the claim's color rule (no offset-0
stop was present in the input). -/
theorem claim_C7_counterexample :
    _tpGLFinalizeColorStops
        [⟨⟨1, 0, 0, 1⟩, -(1/2)⟩, ⟨⟨0, 0, 1, 1⟩, 1/2⟩] =
      [⟨⟨0, 0, 1, 1⟩, 0⟩, ⟨⟨0, 0, 1, 1⟩, 1/2⟩, ⟨⟨0, 0, 1, 1⟩, 1⟩] ∧
    (-(1/2) : ℚ) < 1/2 ∧
    (⟨1, 0, 0, 1⟩ : tpColor) ≠ ⟨0, 0, 1, 1⟩ ∧
    ((-(1/2) : ℚ) = 0) = False ∧ ((1/2 : ℚ) = 0) = False := by
  refine ⟨?_, by norm_num, ?_, by norm_num, by norm_num⟩
  · norm_num [_tpGLFinalizeColorStops, finalizeScan, List.insertionSort,
      List.orderedInsert, stopLe, defaultColorStop]
    exact List.cons_ne_nil _ _
  · intro h
    have := congrArg tpColor.r h
    norm_num at this

/-- Witness for `claim_C7` at the one-stop list `[(1/2, red)]`. -/
theorem claim_C7_witness :
    ([⟨⟨1, 0, 0, 1⟩, 1/2⟩] : List tpColorStop) ≠ [] ∧
    (∀ s ∈ ([⟨⟨1, 0, 0, 1⟩, 1/2⟩] : List tpColorStop),
      0 ≤ s.offset ∧ s.offset ≤ 1) ∧
    (List.Pairwise (fun a b => a.offset < b.offset)
      (_tpGLFinalizeColorStops [⟨⟨1, 0, 0, 1⟩, 1/2⟩]) ∧
    (_tpGLFinalizeColorStops [⟨⟨1, 0, 0, 1⟩, 1/2⟩]).head?.map (fun s => s.offset) =
      some 0 ∧
    (_tpGLFinalizeColorStops [⟨⟨1, 0, 0, 1⟩, 1/2⟩]).getLast?.map (fun s => s.offset) =
      some 1 ∧
    ((∀ s ∈ ([⟨⟨1, 0, 0, 1⟩, 1/2⟩] : List tpColorStop), s.offset ≠ 0) →
      ∃ s ∈ ([⟨⟨1, 0, 0, 1⟩, 1/2⟩] : List tpColorStop),
        (∀ t ∈ ([⟨⟨1, 0, 0, 1⟩, 1/2⟩] : List tpColorStop), s.offset ≤ t.offset) ∧
        (_tpGLFinalizeColorStops [⟨⟨1, 0, 0, 1⟩, 1/2⟩]).head?.map (fun x => x.color) =
          some s.color) ∧
    ((∀ s ∈ ([⟨⟨1, 0, 0, 1⟩, 1/2⟩] : List tpColorStop), s.offset ≠ 1) →
      ∃ s ∈ ([⟨⟨1, 0, 0, 1⟩, 1/2⟩] : List tpColorStop),
        (∀ t ∈ ([⟨⟨1, 0, 0, 1⟩, 1/2⟩] : List tpColorStop), t.offset ≤ s.offset) ∧
        (_tpGLFinalizeColorStops [⟨⟨1, 0, 0, 1⟩, 1/2⟩]).getLast?.map (fun x => x.color) =
          some s.color)) :=
  have h1 : ([⟨⟨1, 0, 0, 1⟩, 1/2⟩] : List tpColorStop) ≠ [] := List.cons_ne_nil _ _
  have h2 : ∀ s ∈ ([⟨⟨1, 0, 0, 1⟩, 1/2⟩] : List tpColorStop),
      0 ≤ s.offset ∧ s.offset ≤ 1 := by
    intro s hs
    rw [List.mem_singleton] at hs
    subst hs
    norm_num
  ⟨h1, h2, claim_C7 [⟨⟨1, 0, 0, 1⟩, 1/2⟩] h1 h2⟩

/-! ## Style and stroke tessellation
(`_tpGLRenderCacheContourContinousStrokeGeometry`) -/

inductive tpPaintType where
  | kTpPaintTypeNone
  | kTpPaintTypeColor
  | kTpPaintTypeGradient
deriving DecidableEq, Repr

inductive tpStrokeCap where
  | kTpStrokeCapRound
  | kTpStrokeCapSquare
  | kTpStrokeCapButt
deriving DecidableEq, Repr

inductive tpStrokeJoin where
  | kTpStrokeJoinMiter
  | kTpStrokeJoinRound
  | kTpStrokeJoinBevel
deriving DecidableEq, Repr

inductive tpFillRule where
  | kTpFillRuleEvenOdd
  | kTpFillRuleNonZero
deriving DecidableEq, Repr

export tpPaintType (kTpPaintTypeNone kTpPaintTypeColor kTpPaintTypeGradient)

export tpStrokeCap (kTpStrokeCapRound kTpStrokeCapSquare kTpStrokeCapButt)

export tpStrokeJoin (kTpStrokeJoinMiter kTpStrokeJoinRound kTpStrokeJoinBevel)

export tpFillRule (kTpFillRuleEvenOdd kTpFillRuleNonZero)

/-- `tpPaint` (the gradient handle of the union is not needed by the
embedded routines and is omitted). -/
structure tpPaint where
  type : tpPaintType
  color : tpColor
deriving DecidableEq, Repr

/-- `tpStyle`; `dashCount` is the dash array's length. -/
structure tpStyle where
  fill : tpPaint
  stroke : tpPaint
  strokeWidth : tpFloat
  strokeCap : tpStrokeCap
  strokeJoin : tpStrokeJoin
  fillRule : tpFillRule
  dashArray : List tpFloat
  dashOffset : tpFloat
  miterLimit : tpFloat
  scaleStroke : Bool
deriving DecidableEq, Repr

/-- `tpVec2Length`: `sqrt(x² + y²)` through the float-math stand-ins. -/
def tpVec2Length (ops : FloatOps) (v : tpVec2) : tpFloat :=
  ops.sqrtQ (v.x * v.x + v.y * v.y)

/-- `tpVec2NormalizeSelf`: scales by `1 / length` with *no* zero-length
guard (the division underlying claim C10). -/
def tpVec2NormalizeSelf (ops : FloatOps) (v : tpVec2) : tpVec2 :=
  let s := 1 / tpVec2Length ops v
  ⟨v.x * s, v.y * s⟩

/-- `_tpGLPushTriangle` -/
def _tpGLPushTriangle (out : List tpVec2) (a b c : tpVec2) : List tpVec2 :=
  out ++ [a, b, c]

/-- `_tpGLPushQuad`: two triangles `a b c` / `c d a`. -/
def _tpGLPushQuad (out : List tpVec2) (a b c d : tpVec2) : List tpVec2 :=
  out ++ [a, b, c, c, d, a]

/-- `tpMat2MakeRotation` through the float-math stand-ins. -/
def tpMat2MakeRotation (ops : FloatOps) (angle : tpFloat) : tpMat2 :=
  tpMat2Make (ops.cosQ angle) (-ops.sinQ angle) (ops.sinQ angle) (ops.cosQ angle)

/-- The `for (;;)` loop of `_tpGLMakeCircleSector`; rotating by `π/16`
passes any target within 32 steps, so the 64-step bound is never the
reason the loop stops (fuel exhaustion behaves like the `break`). -/
def circleSectorLoop (rot : tpMat2) (center r1 : tpVec2) :
    Nat → tpVec2 → tpVec2 → List tpVec2 → tpVec2 × List tpVec2
  | 0, _, last, out => (last, out)
  | fuel + 1, r, last, out =>
    let r2 := tpMat2MultVec2 rot r
    if tpVec2Cross r2 r1 < 0 then (last, out)
    else
      let current := tpVec2Add center r2
      circleSectorLoop rot center r1 fuel r2 current
        (_tpGLPushTriangle out center last current)

/-- `_tpGLMakeCircleSector` (`_levelOfDetail` is unused in the source). -/
def _tpGLMakeCircleSector (ops : FloatOps) (center r0 r1 : tpVec2)
    (out : List tpVec2) : List tpVec2 :=
  let rot := tpMat2MakeRotation ops (TARP_PI / 16)
  let lastOut := circleSectorLoop rot center r1 64 r0 (tpVec2Add center r0) out
  _tpGLPushTriangle lastOut.2 center lastOut.1 (tpVec2Add center r1)

/-- `_tpGLMakeJoinBevel` -/
def _tpGLMakeJoinBevel (lePrev rePrev le re : tpVec2) (cross : tpFloat)
    (out : List tpVec2) : List tpVec2 :=
  _tpGLPushTriangle out lePrev (if cross < 0 then le else re) rePrev

/-- `_tpGLIntersectLines`: `none` when the lines are parallel. -/
def _tpGLIntersectLines (p0 d0 p1 d1 : tpVec2) : Option tpVec2 :=
  let delta := tpVec2Sub p0 p1
  let cross := tpVec2Cross d0 d1
  if cross = 0 then none
  else some (tpVec2Add p0 (tpVec2MultScalar d0 (tpVec2Cross d1 delta / cross)))

/-- `_tpGLMakeJoinMiter`.  The C ignores `_tpGLIntersectLines`'s return
value and uses the (then uninitialized) intersection when the edges are
parallel; that read is modelled by the `getD` default. -/
def _tpGLMakeJoinMiter (p e0 e1 dir0 dir1 : tpVec2) (out : List tpVec2) :
    List tpVec2 :=
  let intersection := (_tpGLIntersectLines e0 dir0 e1 dir1).getD ⟨0, 0⟩
  _tpGLPushQuad out p e0 intersection e1

/-- `_tpGLMakeJoin` -/
def _tpGLMakeJoin (ops : FloatOps) (type : tpStrokeJoin)
    (p dir0 dir1 perp0 perp1 lePrev rePrev le re : tpVec2)
    (cross miterLimit : tpFloat) (out : List tpVec2) : List tpVec2 :=
  match type with
  | kTpStrokeJoinRound =>
    if cross < 0 then _tpGLMakeCircleSector ops p perp0 perp1 out
    else
      _tpGLMakeCircleSector ops p ⟨-perp1.x, -perp1.y⟩ ⟨-perp0.x, -perp0.y⟩ out
  | kTpStrokeJoinMiter =>
    let nperp0 := tpVec2Perp dir0
    let nperp1 := tpVec2Perp dir1
    let theta0 := ops.acosQ (tpVec2Dot nperp0 nperp1)
    let theta := if TARP_HALF_PI < theta0 then TARP_PI - theta0 else theta0
    let miterLen := 1 / ops.sinQ (theta / 2)
    if miterLen < miterLimit then
      if cross < 0 then _tpGLMakeJoinMiter p lePrev le dir0 dir1 out
      else _tpGLMakeJoinMiter p rePrev re dir0 dir1 out
    else
      -- fall through to bevel
      _tpGLMakeJoinBevel lePrev rePrev le re cross out
  | kTpStrokeJoinBevel => _tpGLMakeJoinBevel lePrev rePrev le re cross out

/-- `_tpGLMakeCapSquare` -/
def _tpGLMakeCapSquare (_p dir le re : tpVec2) (out : List tpVec2) : List tpVec2 :=
  let a := tpVec2Add re dir
  let b := tpVec2Add le dir
  _tpGLPushQuad out re a b le

/-- `_tpGLMakeCap` -/
def _tpGLMakeCap (ops : FloatOps) (type : tpStrokeCap) (p dir perp le re : tpVec2)
    (_bStart : Bool) (out : List tpVec2) : List tpVec2 :=
  match type with
  | kTpStrokeCapRound => _tpGLMakeCircleSector ops p perp ⟨-perp.x, -perp.y⟩ out
  | kTpStrokeCapSquare => _tpGLMakeCapSquare p dir le re out
  | kTpStrokeCapButt => out

/-- The loop-carried locals of
`_tpGLRenderCacheContourContinousStrokeGeometry` (uninitialized in C;
never read before being written, mirrored by zero initialization). -/
structure StrokeLoopVars where
  dirPrev : tpVec2
  perpPrev : tpVec2
  lePrev : tpVec2
  rePrev : tpVec2
  firstDir : tpVec2
  firstPerp : tpVec2
  firstLe : tpVec2
  firstRe : tpVec2
deriving DecidableEq, Repr

def strokeLoopVars0 : StrokeLoopVars :=
  ⟨⟨0, 0⟩, ⟨0, 0⟩, ⟨0, 0⟩, ⟨0, 0⟩, ⟨0, 0⟩, ⟨0, 0⟩, ⟨0, 0⟩, ⟨0, 0⟩⟩

/-- The edge loop of `_tpGLRenderCacheContourContinousStrokeGeometry`.
The C iterates `j` over the contour's span of the shared vertex buffer;
here `fillVerts`/`joints` are that span and `j` is relative, `count` its
length, `remaining = count - 1 - j` edges left. -/
def strokeGeoLoop (ops : FloatOps) (style : tpStyle) (closed : Bool)
    (fillVerts : List tpVec2) (joints : List Bool) (count : Nat) :
    Nat → Nat → StrokeLoopVars → List tpVec2 → List tpVec2
  | 0, _, _, out => out
  | remaining + 1, j, v, out =>
    let halfSw := style.strokeWidth * (1/2)
    let p0 := fillVerts.getD j ⟨0, 0⟩
    let p1 := fillVerts.getD (j + 1) ⟨0, 0⟩
    let dir := tpVec2NormalizeSelf ops (tpVec2Sub p1 p0)
    let perp : tpVec2 := ⟨dir.y * halfSw, -dir.x * halfSw⟩
    let le0 := tpVec2Add p0 perp
    let re0 := tpVec2Sub p0 perp
    let le1 := tpVec2Add p1 perp
    let re1 := tpVec2Sub p1 perp
    let step1 : StrokeLoopVars × List tpVec2 :=
      if j = 0 then
        if ¬closed then
          let firstDir := tpVec2MultScalar dir (-1 * halfSw)
          let firstPerp : tpVec2 := ⟨firstDir.y, -firstDir.x⟩
          ({ v with firstDir := firstDir, firstPerp := firstPerp },
           _tpGLMakeCap ops style.strokeCap p0 firstDir firstPerp le0 re0 true out)
        else
          ({ v with firstDir := dir, firstPerp := perp, firstLe := le0, firstRe := re0 },
           out)
      else
        let cross := tpVec2Cross perp v.perpPrev
        if joints.getD j false then
          (v, _tpGLMakeJoin ops style.strokeJoin p0 v.dirPrev dir v.perpPrev perp
            v.lePrev v.rePrev le0 re0 cross style.miterLimit out)
        else
          (v, _tpGLMakeJoinBevel v.lePrev v.rePrev le0 re0 cross out)
    let v1 := step1.1
    let out2 := _tpGLPushQuad step1.2 le1 le0 re0 re1
    let out3 :=
      if j = count - 2 ∨ count = 2 then
        if joints.getD (j + 1) false ∧ closed then
          let cross := tpVec2Cross v1.firstPerp perp
          _tpGLMakeJoin ops style.strokeJoin p1 dir v1.firstDir perp v1.firstPerp
            le1 re1 v1.firstLe v1.firstRe cross style.miterLimit out2
        else
          let capDir := tpVec2MultScalar dir halfSw
          _tpGLMakeCap ops style.strokeCap p1 capDir perp le1 re1 false out2
      else out2
    strokeGeoLoop ops style closed fillVerts joints count remaining (j + 1)
      { v1 with dirPrev := dir, perpPrev := perp, lePrev := le1, rePrev := re1 } out3

/-- `_tpGLRenderCacheContourContinousStrokeGeometry`: the stroke triangle
soup appended for one flattened contour (given as its fill-vertex span
and joint flags).  Contours with at most one fill vertex produce no
stroke geometry. -/
def _tpGLRenderCacheContourContinousStrokeGeometry (ops : FloatOps) (style : tpStyle)
    (fillVerts : List tpVec2) (joints : List Bool) (closed : Bool) : List tpVec2 :=
  if fillVerts.length ≤ 1 then []
  else
    strokeGeoLoop ops style closed fillVerts joints fillVerts.length
      (fillVerts.length - 1) 0 strokeLoopVars0 []

/-! ## Bounds geometry (`_tpGLCacheBoundsGeometry`) and claim C4 -/

/-- The fields of `_tpGLRenderCache` touched by `_tpGLCacheBoundsGeometry`
(the remaining fields of the C struct are irrelevant to it). -/
structure _tpGLRenderCache where
  geometryCache : List tpVec2
  boundsCache : _tpGLRect
  strokeBoundsCache : _tpGLRect
  boundsVertexOffset : Nat
deriving DecidableEq, Repr

/-- `_tpGLCacheBoundsGeometry`: records where the bounds quad starts,
and, when there is a stroke, expands the fill bounds by
`miterLimit·strokeWidth·0.5` (miter join) or `strokeWidth` (otherwise),
stores that as `strokeBoundsCache` and appends its four corners;
without a stroke the fill bounds' corners are appended. -/
def _tpGLCacheBoundsGeometry (cache : _tpGLRenderCache) (style : tpStyle) :
    _tpGLRenderCache :=
  let cache1 := { cache with boundsVertexOffset := cache.geometryCache.length }
  if style.stroke.type ≠ kTpPaintTypeNone then
    let adder :=
      if style.strokeJoin = kTpStrokeJoinMiter then
        style.miterLimit * style.strokeWidth * (1/2)
      else style.strokeWidth
    let bounds : _tpGLRect :=
      ⟨⟨cache.boundsCache.min.x - adder, cache.boundsCache.min.y - adder⟩,
       ⟨cache.boundsCache.max.x + adder, cache.boundsCache.max.y + adder⟩⟩
    { cache1 with
      strokeBoundsCache := bounds
      geometryCache := cache1.geometryCache ++
        [bounds.min, ⟨bounds.min.x, bounds.max.y⟩,
         ⟨bounds.max.x, bounds.min.y⟩, bounds.max] }
  else
    { cache1 with
      geometryCache := cache1.geometryCache ++
        [cache.boundsCache.min, ⟨cache.boundsCache.min.x, cache.boundsCache.max.y⟩,
         ⟨cache.boundsCache.max.x, cache.boundsCache.min.y⟩, cache.boundsCache.max] }

/-- Axis-aligned bounding box of a list of points (specification-side
notion, used to compare the stroke soup against the claimed box). -/
def bboxOfList (vs : List tpVec2) : _tpGLRect :=
  vs.foldl
    (fun r v => ⟨⟨min r.min.x v.x, min r.min.y v.y⟩, ⟨max r.max.x v.x, max r.max.y v.y⟩⟩)
    _tpGLInitBounds

/-- The stroke bounding box the spec's sentence describes (expansion by
`miterLimit·w/2` for miter joins and by `w/2` otherwise), written from
the spec's words for comparison against the source's computation. -/
def specC4StrokeBBox (join : tpStrokeJoin) (miterLimit w : tpFloat)
    (fillBounds : _tpGLRect) : _tpGLRect :=
  let adder := if join = kTpStrokeJoinMiter then miterLimit * w * (1/2) else w * (1/2)
  ⟨⟨fillBounds.min.x - adder, fillBounds.min.y - adder⟩,
   ⟨fillBounds.max.x + adder, fillBounds.max.y + adder⟩⟩

/-- `moveTo(0,0); lineTo(10,0)` through the public builder API. -/
def c4Path : _tpGLPath :=
  (tpPathLineTo (tpPathMoveTo tpPathCreate none 0 0).2.1 none 10 0).2.1

def c4Contour : _tpGLContour := c4Path.contours.getD 0 ⟨[], true, false, true, -1⟩

/-- Stroke width 2, bevel join, butt cap, miter limit 4. -/
def c4Style : tpStyle :=
  ⟨⟨kTpPaintTypeColor, ⟨0, 0, 0, 1⟩⟩, ⟨kTpPaintTypeColor, ⟨0, 0, 0, 1⟩⟩,
   2, kTpStrokeCapButt, kTpStrokeJoinBevel, kTpFillRuleEvenOdd, [], 0, 4, true⟩

def c4Flat : FlattenAcc × _tpGLRenderCacheContour :=
  (_tpGLFlattenContour 4 c4Contour (3/20) none [] []).getD
    (⟨[], [], _tpGLInitBounds, 0, true⟩, ⟨0, 0, 0, 0, false⟩)

def c4Soup : List tpVec2 :=
  _tpGLRenderCacheContourContinousStrokeGeometry exactFloatOps c4Style
    c4Flat.1.verts c4Flat.1.joints c4Contour.bIsClosed


/-- **C4** (corrected).  With a stroke present, `_tpGLCacheBoundsGeometry`
does not compute the tight bounding box of the stroke triangle soup: it
expands the fill bounds by `miterLimit·w·0.5` for miter joins and by the
*full* stroke width `w` (not `w/2`) otherwise, stores the result as the
stroke bounds, appends that rectangle's four corners after recording
their offset — and for a non-miter join with `w ≠ 0` this differs from
the `w/2` expansion the spec describes. -/
theorem claim_C4 (cache : _tpGLRenderCache) (style : tpStyle)
    (h : style.stroke.type ≠ kTpPaintTypeNone) (adder : tpFloat)
    (hadder : adder = if style.strokeJoin = kTpStrokeJoinMiter
      then style.miterLimit * style.strokeWidth * (1/2) else style.strokeWidth) :
    (_tpGLCacheBoundsGeometry cache style).strokeBoundsCache =
      ⟨⟨cache.boundsCache.min.x - adder, cache.boundsCache.min.y - adder⟩,
       ⟨cache.boundsCache.max.x + adder, cache.boundsCache.max.y + adder⟩⟩ ∧
    (_tpGLCacheBoundsGeometry cache style).boundsVertexOffset =
      cache.geometryCache.length ∧
    (_tpGLCacheBoundsGeometry cache style).geometryCache =
      cache.geometryCache ++
        [(_tpGLCacheBoundsGeometry cache style).strokeBoundsCache.min,
         ⟨(_tpGLCacheBoundsGeometry cache style).strokeBoundsCache.min.x,
          (_tpGLCacheBoundsGeometry cache style).strokeBoundsCache.max.y⟩,
         ⟨(_tpGLCacheBoundsGeometry cache style).strokeBoundsCache.max.x,
          (_tpGLCacheBoundsGeometry cache style).strokeBoundsCache.min.y⟩,
         (_tpGLCacheBoundsGeometry cache style).strokeBoundsCache.max] ∧
    (style.strokeJoin ≠ kTpStrokeJoinMiter → style.strokeWidth ≠ 0 →
      (_tpGLCacheBoundsGeometry cache style).strokeBoundsCache ≠
        specC4StrokeBBox style.strokeJoin style.miterLimit style.strokeWidth
          cache.boundsCache) := by
  subst hadder
  simp only [_tpGLCacheBoundsGeometry, h, ne_eq, not_false_eq_true, if_true, ite_true]
  refine ⟨trivial, trivial, trivial, ?_⟩
  intro hj hw heq
  have h1 : cache.boundsCache.min.x - style.strokeWidth =
      cache.boundsCache.min.x - style.strokeWidth * (1/2) := by
    have hx := congrArg (fun r => r.min.x) heq
    simpa [specC4StrokeBBox, if_neg hj] using hx
  have h2 : style.strokeWidth = 0 := by linarith
  exact hw h2

def c4WitnessCache : _tpGLRenderCache :=
  ⟨[], ⟨⟨0, 0⟩, ⟨10, 0⟩⟩, ⟨⟨0, 0⟩, ⟨0, 0⟩⟩, 0⟩

theorem claim_C4_witness :
    c4Style.stroke.type ≠ kTpPaintTypeNone ∧
    (_tpGLCacheBoundsGeometry c4WitnessCache c4Style).strokeBoundsCache =
      ⟨⟨-2, -2⟩, ⟨12, 2⟩⟩ := by
  have hty : c4Style.stroke.type ≠ kTpPaintTypeNone := by decide
  have hadd : (2 : tpFloat) = (if c4Style.strokeJoin = kTpStrokeJoinMiter
      then c4Style.miterLimit * c4Style.strokeWidth * (1/2) else c4Style.strokeWidth) := by
    simp [c4Style]
  have happ := claim_C4 c4WitnessCache c4Style hty 2 hadd
  refine ⟨hty, happ.1.trans ?_⟩
  norm_num [c4WitnessCache, _tpGLRect.mk.injEq, tpVec2.mk.injEq]

/-- The spec's sentence fails on `moveTo(0,0); lineTo(10,0)` stroked with
width 2, bevel join, butt cap: the flattener yields the two vertices and
fill bounds below, the stroke soup is a single quad whose bounding box
is `[0,10]×[-1,1]`, while the claimed `w/2`-expansion of the fill bounds
is `[-1,11]×[-1,1]`: the left edges differ by `1`, far above the `1e-4`
tolerance (and the code's own stored expansion uses `w`, giving
`[-2,12]×[-2,2]`). -/
theorem claim_C4_counterexample :
    c4Flat.1.verts = [⟨0, 0⟩, ⟨10, 0⟩] ∧
    c4Flat.1.bounds = ⟨⟨0, 0⟩, ⟨10, 0⟩⟩ ∧
    c4Soup = [⟨10, -1⟩, ⟨0, -1⟩, ⟨0, 1⟩, ⟨0, 1⟩, ⟨10, 1⟩, ⟨10, -1⟩] ∧
    bboxOfList c4Soup = ⟨⟨0, -1⟩, ⟨10, 1⟩⟩ ∧
    specC4StrokeBBox c4Style.strokeJoin c4Style.miterLimit c4Style.strokeWidth
      c4Flat.1.bounds = ⟨⟨-1, -1⟩, ⟨11, 1⟩⟩ ∧
    (bboxOfList c4Soup).min.x -
      (specC4StrokeBBox c4Style.strokeJoin c4Style.miterLimit c4Style.strokeWidth
        c4Flat.1.bounds).min.x = 1 ∧
    (1/10000 : tpFloat) < 1 := by
  have hcont : c4Contour =
      ⟨[⟨⟨0, 0⟩, ⟨0, 0⟩, ⟨0, 0⟩⟩, ⟨⟨10, 0⟩, ⟨10, 0⟩, ⟨10, 0⟩⟩], true, false, true, 1⟩ := by
    norm_num [c4Contour, c4Path, tpPathCreate, tpPathMoveTo, tpPathLineTo,
      _tpGLPathNextEmptyContour, _tpGLPathCreateNextContour, _tpGLCurrentContour,
      _tpGLContourAddSegment, _tpGLContourAddSegments, tpSegmentMake, tpVec2Make]
  have hflat : c4Flat =
      (⟨[⟨0, 0⟩, ⟨10, 0⟩], [false, true], ⟨⟨0, 0⟩, ⟨10, 0⟩⟩, 2, false⟩,
       ⟨0, 2, 0, 0, false⟩) := by
    rw [c4Flat, hcont]
    norm_num [_tpGLFlattenContour, flattenContourLoop, contourCurve,
      _tpGLFlattenCurve, flattenRun, flattenStep, flattenEmit,
      _tpGLIsCurveFlatEnough, _tpGLIsCurveLinear, _tpGLIsClose,
      _tpGLFlatnessMetric, _tpGLSubdivideCurve, tpVec2Equals, tpVec2Lerp,
      tpVec2Add, tpVec2Sub, tpVec2MultScalar, tpVec2LengthSquared,
      tpVec2DistanceSquared, _tpGLEvaluatePointForBounds, _tpGLInitBounds,
      _tpGLMergeBounds, FLT_EPSILON, FLT_MAX, min_def, max_def]
  have hsoup : c4Soup = [⟨10, -1⟩, ⟨0, -1⟩, ⟨0, 1⟩, ⟨0, 1⟩, ⟨10, 1⟩, ⟨10, -1⟩] := by
    rw [c4Soup, hflat, hcont]
    norm_num [_tpGLRenderCacheContourContinousStrokeGeometry, strokeGeoLoop,
      strokeLoopVars0, c4Style, tpVec2NormalizeSelf, tpVec2Length, exactFloatOps,
      ratSqrt, Int.toNat, tpVec2Add, tpVec2Sub, tpVec2MultScalar, tpVec2Cross,
      _tpGLMakeCap, _tpGLPushQuad, _tpGLPushTriangle]
  refine ⟨by rw [hflat], by rw [hflat], hsoup, ?_, ?_, ?_, by norm_num⟩
  · rw [hsoup]
    norm_num [bboxOfList, _tpGLInitBounds, FLT_MAX, min_def, max_def]
  · rw [hflat]
    norm_num [specC4StrokeBBox, c4Style, _tpGLRect.mk.injEq, tpVec2.mk.injEq,
      (by decide : ¬(kTpStrokeJoinBevel = kTpStrokeJoinMiter))]
  · rw [hsoup, hflat]
    norm_num [bboxOfList, specC4StrokeBBox, c4Style, _tpGLInitBounds, FLT_MAX,
      min_def, max_def, (by decide : ¬(kTpStrokeJoinBevel = kTpStrokeJoinMiter))]

/-! ## Claim C10: the unguarded division on a zero-length stroke edge

`tpVec2NormalizeSelf` computes `s = 1 / length` with no zero check, and
the stroke edge loop normalizes `p1 - p0` for every consecutive vertex
pair.  To talk about non-finite results the scalar computation of one
edge (`dir`/`perp`/`le`/`re` and the edge quad, Tarp.h lines 2885-2903)
is repeated over `Option ℚ`, where `some q` is the finite float of value
`q` and `none` is a non-finite value (NaN or ±∞).  In the zero-edge
instance below every `none` is exact IEEE behaviour: the length is
exactly `0`, so `s = 1/0 = +∞`, each `dir` component is `0 · ∞ = NaN`,
and every later operand is `NaN`, which propagates through `+`, `-`, `·`. -/

def addF : Option ℚ → Option ℚ → Option ℚ
  | some a, some b => some (a + b)
  | _, _ => none

def subF : Option ℚ → Option ℚ → Option ℚ
  | some a, some b => some (a - b)
  | _, _ => none

def mulF : Option ℚ → Option ℚ → Option ℚ
  | some a, some b => some (a * b)
  | _, _ => none

/-- Division: a nonzero finite numerator over `±0` is `±∞`, `0/0` is
`NaN` — in either case non-finite, so `divF _ (some 0) = none`. -/
def divF : Option ℚ → Option ℚ → Option ℚ
  | some a, some b => if b = 0 then none else some (a / b)
  | _, _ => none

def negF : Option ℚ → Option ℚ
  | some a => some (-a)
  | none => none

/-- Square root; `sqrt` of a negative or non-finite argument is `NaN`
(only ever applied to exact squares here, where `ratSqrt` is exact). -/
def sqrtF : Option ℚ → Option ℚ
  | some q => if q < 0 then none else some (ratSqrt q)
  | none => none

structure tpVec2F where
  x : Option ℚ
  y : Option ℚ
deriving DecidableEq, Repr

/-- One iteration of the stroke edge loop for the edge `p0 → p1`, over
the `Option ℚ` scalars: `tpVec2Sub`, `tpVec2NormalizeSelf` (the
unguarded `1 / length`), the `perp`/`le`/`re` offsets and the edge quad
`le1 le0 re0 re1` as pushed by `_tpGLPushQuad`. -/
def strokeEdgeQuadIEEE (halfSw : Option ℚ) (p0 p1 : tpVec2F) : List tpVec2F :=
  let dirRaw : tpVec2F := ⟨subF p1.x p0.x, subF p1.y p0.y⟩
  let len := sqrtF (addF (mulF dirRaw.x dirRaw.x) (mulF dirRaw.y dirRaw.y))
  let s := divF (some 1) len
  let dir : tpVec2F := ⟨mulF dirRaw.x s, mulF dirRaw.y s⟩
  let perp : tpVec2F := ⟨mulF dir.y halfSw, mulF (negF dir.x) halfSw⟩
  let le0 : tpVec2F := ⟨addF p0.x perp.x, addF p0.y perp.y⟩
  let re0 : tpVec2F := ⟨subF p0.x perp.x, subF p0.y perp.y⟩
  let le1 : tpVec2F := ⟨addF p1.x perp.x, addF p1.y perp.y⟩
  let re1 : tpVec2F := ⟨subF p1.x perp.x, subF p1.y perp.y⟩
  [le1, le0, re0, re0, re1, le1]

/-- `moveTo(0,0); lineTo(0,0)`: a line segment to the current position. -/
def c10Path : _tpGLPath :=
  (tpPathLineTo (tpPathMoveTo tpPathCreate none 0 0).2.1 none 0 0).2.1

def c10Contour : _tpGLContour := c10Path.contours.getD 0 ⟨[], true, false, true, -1⟩

def c10Style : tpStyle :=
  ⟨⟨kTpPaintTypeColor, ⟨0, 0, 0, 1⟩⟩, ⟨kTpPaintTypeColor, ⟨0, 0, 0, 1⟩⟩,
   2, kTpStrokeCapButt, kTpStrokeJoinBevel, kTpFillRuleEvenOdd, [], 0, 4, true⟩

def c10Flat : FlattenAcc × _tpGLRenderCacheContour :=
  (_tpGLFlattenContour 4 c10Contour (3/20) none [] []).getD
    (⟨[], [], _tpGLInitBounds, 0, true⟩, ⟨0, 0, 0, 0, false⟩)

/-- **C10** (confirmed).  `moveTo(0,0); lineTo(0,0)` succeeds through the
public builder API; the flattener turns it into two consecutive equal
vertices, whose span (length 2) passes stroking's `fillVertexCount ≤ 1`
skip-guard, so the edge loop does process the zero-length edge (the
stroke routine emits a non-empty soup for it); the edge's length is
exactly `0` and `tpVec2NormalizeSelf` divides `1` by it with no guard;
under the IEEE lifting of that edge computation every produced quad
coordinate is non-finite. -/
theorem claim_C10 :
    (tpPathLineTo (tpPathMoveTo tpPathCreate none 0 0).2.1 none 0 0).1 = false ∧
    c10Flat.1.verts = [⟨0, 0⟩, ⟨0, 0⟩] ∧
    tpVec2Length exactFloatOps (tpVec2Sub ⟨0, 0⟩ ⟨0, 0⟩) = 0 ∧
    _tpGLRenderCacheContourContinousStrokeGeometry exactFloatOps c10Style
      c10Flat.1.verts c10Flat.1.joints c10Contour.bIsClosed ≠ [] ∧
    strokeEdgeQuadIEEE (some 1) ⟨some 0, some 0⟩ ⟨some 0, some 0⟩ =
      [⟨none, none⟩, ⟨none, none⟩, ⟨none, none⟩,
       ⟨none, none⟩, ⟨none, none⟩, ⟨none, none⟩] := by
  have hcont : c10Contour =
      ⟨[⟨⟨0, 0⟩, ⟨0, 0⟩, ⟨0, 0⟩⟩, ⟨⟨0, 0⟩, ⟨0, 0⟩, ⟨0, 0⟩⟩], true, false, true, 1⟩ := by
    norm_num [c10Contour, c10Path, tpPathCreate, tpPathMoveTo, tpPathLineTo,
      _tpGLPathNextEmptyContour, _tpGLPathCreateNextContour, _tpGLCurrentContour,
      _tpGLContourAddSegment, _tpGLContourAddSegments, tpSegmentMake, tpVec2Make]
  have hflat : c10Flat =
      (⟨[⟨0, 0⟩, ⟨0, 0⟩], [false, true], ⟨⟨0, 0⟩, ⟨0, 0⟩⟩, 2, false⟩,
       ⟨0, 2, 0, 0, false⟩) := by
    rw [c10Flat, hcont]
    norm_num [_tpGLFlattenContour, flattenContourLoop, contourCurve,
      _tpGLFlattenCurve, flattenRun, flattenStep, flattenEmit,
      _tpGLIsCurveFlatEnough, _tpGLIsCurveLinear, _tpGLIsClose,
      _tpGLFlatnessMetric, _tpGLSubdivideCurve, tpVec2Equals, tpVec2Lerp,
      tpVec2Add, tpVec2Sub, tpVec2MultScalar, tpVec2LengthSquared,
      tpVec2DistanceSquared, _tpGLEvaluatePointForBounds, _tpGLInitBounds,
      _tpGLMergeBounds, FLT_EPSILON, FLT_MAX, min_def, max_def]
  refine ⟨?_, by rw [hflat], ?_, ?_, ?_⟩
  · norm_num [tpPathCreate, tpPathMoveTo, tpPathLineTo,
      _tpGLPathNextEmptyContour, _tpGLPathCreateNextContour, _tpGLCurrentContour,
      _tpGLContourAddSegment, _tpGLContourAddSegments, tpSegmentMake, tpVec2Make]
  · norm_num [tpVec2Length, tpVec2Sub, exactFloatOps, ratSqrt, Int.toNat]
  · rw [hflat, hcont]
    norm_num [_tpGLRenderCacheContourContinousStrokeGeometry, strokeGeoLoop,
      strokeLoopVars0, c10Style, tpVec2NormalizeSelf, tpVec2Length, exactFloatOps,
      ratSqrt, Int.toNat, tpVec2Add, tpVec2Sub, tpVec2MultScalar, tpVec2Cross,
      _tpGLMakeCap, _tpGLPushQuad, _tpGLPushTriangle]
    exact List.cons_ne_nil _ _
  · norm_num [strokeEdgeQuadIEEE, addF, subF, mulF, divF, negF, sqrtF, ratSqrt,
      Int.toNat]
